import Mathlib

/-!
Verification of the data.gouv.fr stats-explorer aggregation scripts.

Shallow embedding of the pure computational core of two scripts:
* `scripts/sync-stats.ts` — full synchronisation: builds per-dataset monthly
  series, global aggregates, top-100 rankings per period and metric, and the
  dataset directory.
* `scripts/sync-incremental.ts` — incremental synchronisation: computes the
  months missing after the last stored month and additively merges the newly
  fetched monthly records into the stored series.

Modelling conventions:
* JavaScript numbers holding integer counters are embedded as `Int`; the
  floating-point trend percentage is embedded as `ℚ` (the concrete divisions
  appearing in the claims are exact in binary floating point as well).
* JavaScript `Map` objects are embedded as association lists in insertion
  order (`jset` / `jget` mirror `Map.set` / `Map.get`).
* JavaScript string comparison (`<`, `<=` on "YYYY-MM" keys) is embedded by
  `strLt` / `strLe`, lexicographic comparison of the code-unit sequences.
* `Array.prototype.sort` is a stable sort and is embedded as
  `List.insertionSort r` where `r a b` states that the comparator allows `a`
  to stay before `b` (comparator value `≤ 0`).
* The wall clock (`new Date()`) is an external input; it is embedded as a
  month index `anchor : ℕ` (`index = 12 * year + (month - 1)`), the current
  month string being `fmtMonth anchor`.
-/

namespace StatsExplorer

/-! ### JavaScript string comparison on code units -/

/-- Lexicographic comparison of two code-unit sequences, the semantics of the
JavaScript `<` operator on strings. -/
def lexLt : List Char → List Char → Bool
  | [], [] => false
  | [], _ :: _ => true
  | _ :: _, [] => false
  | a :: as, b :: bs =>
    if a.toNat < b.toNat then true
    else if b.toNat < a.toNat then false
    else lexLt as bs

/-- JavaScript `a < b` on strings. -/
def strLt (a b : String) : Bool := lexLt a.data b.data

/-- JavaScript `a <= b` on strings (total order: `a <= b ↔ ¬ (b < a)`). -/
def strLe (a b : String) : Bool := !(strLt b a)

theorem lexLt_nil_right : ∀ (a : List Char), lexLt a [] = false
  | [] => rfl
  | _ :: _ => rfl

theorem lexLt_cons (a b : Char) (as bs : List Char) :
    lexLt (a :: as) (b :: bs) =
      if a.toNat < b.toNat then true
      else if b.toNat < a.toNat then false
      else lexLt as bs := rfl

theorem lexLt_asymm : ∀ {a b : List Char}, lexLt a b = true → lexLt b a = false
  | [], [], _ => rfl
  | [], _ :: _, _ => rfl
  | _ :: _, [], h => by simp [lexLt_nil_right] at h
  | a :: as, b :: bs, h => by
    rw [lexLt_cons] at h ⊢
    rcases Nat.lt_trichotomy a.toNat b.toNat with hv | hv | hv
    · rw [if_neg (Nat.lt_asymm hv), if_pos hv]
    · rw [hv] at h ⊢
      simp only [Nat.lt_irrefl, if_neg (Nat.lt_irrefl _)] at h ⊢
      exact lexLt_asymm h
    · rw [if_pos hv, if_neg (Nat.lt_asymm hv)] at h
      exact absurd h (by simp)

/-- `¬ <` (that is, `≥`) on code-unit sequences is transitive. -/
theorem lexGe_trans : ∀ {a b c : List Char},
    lexLt b a = false → lexLt c b = false → lexLt c a = false
  | [], _, c, _, _ => lexLt_nil_right c
  | _ :: _, [], _, h, _ => by simp [lexLt] at h
  | _ :: _, _ :: _, [], _, h' => by simp [lexLt] at h'
  | a :: as, b :: bs, c :: cs, h, h' => by
    rw [lexLt_cons] at h h' ⊢
    rcases Nat.lt_trichotomy b.toNat a.toNat with h1 | h1 | h1
    · rw [if_pos h1] at h
      exact absurd h (by simp)
    · rcases Nat.lt_trichotomy c.toNat b.toNat with h2 | h2 | h2
      · rw [if_pos h2] at h'
        exact absurd h' (by simp)
      · rw [h1] at h
        rw [h2, h1] at h'
        simp only [Nat.lt_irrefl, if_neg (Nat.lt_irrefl _)] at h h'
        rw [h2, h1]
        simp only [Nat.lt_irrefl, if_neg (Nat.lt_irrefl _)]
        exact lexGe_trans h h'
      · rw [if_neg (by omega : ¬ c.toNat < a.toNat), if_pos (by omega : a.toNat < c.toNat)]
    · rcases Nat.lt_trichotomy c.toNat b.toNat with h2 | h2 | h2
      · rw [if_pos h2] at h'
        exact absurd h' (by simp)
      · rw [if_neg (by omega : ¬ c.toNat < a.toNat), if_pos (by omega : a.toNat < c.toNat)]
      · rw [if_neg (by omega : ¬ c.toNat < a.toNat), if_pos (by omega : a.toNat < c.toNat)]

theorem strLe_total (a b : String) : strLe a b = true ∨ strLe b a = true := by
  by_cases h : strLt b a = true
  · right
    have := lexLt_asymm (a := b.data) (b := a.data) h
    simp [strLe, strLt, this]
  · left
    simp [strLe, strLt] at h ⊢
    exact h

theorem strLe_trans {a b c : String} (h : strLe a b = true) (h' : strLe b c = true) :
    strLe a c = true := by
  simp only [strLe, strLt, Bool.not_eq_true'] at h h' ⊢
  exact lexGe_trans h h'

/-! ### "YYYY-MM" month strings

A calendar month is identified with its index `12 * year + (month - 1)`.
`fmtMonth` produces the fixed-width "YYYY-MM" key that
`date.toISOString().slice(0, 7)` yields for a date in that month. -/

/-- One decimal digit as a character. -/
def digitChar : Nat → Char
  | 0 => '0' | 1 => '1' | 2 => '2' | 3 => '3' | 4 => '4'
  | 5 => '5' | 6 => '6' | 7 => '7' | 8 => '8' | _ => '9'

/-- Zero-padded 4-digit decimal numeral (years of interest are `< 10000`). -/
def fmt4 (n : Nat) : List Char :=
  [digitChar (n / 1000), digitChar (n / 100 % 10), digitChar (n / 10 % 10), digitChar (n % 10)]

/-- Zero-padded 2-digit decimal numeral. -/
def fmt2 (n : Nat) : List Char :=
  [digitChar (n / 10), digitChar (n % 10)]

/-- The "YYYY-MM" string of the month with index `i`. -/
def fmtMonth (i : Nat) : String :=
  ⟨fmt4 (i / 12) ++ '-' :: fmt2 (i % 12 + 1)⟩

theorem digitChar_toNat {n : Nat} (h : n < 10) : (digitChar n).toNat = 48 + n := by
  interval_cases n <;> rfl

theorem lexLt_fmt4_append (x y : Nat) (r s : List Char) (hx : x < 10000) (hy : y < 10000) :
    lexLt (fmt4 x ++ r) (fmt4 y ++ s) =
      if x < y then true else if y < x then false else lexLt r s := by
  simp only [fmt4, List.cons_append, List.nil_append, lexLt_cons]
  rw [digitChar_toNat (show x / 1000 < 10 by omega),
    digitChar_toNat (show x / 100 % 10 < 10 by omega),
    digitChar_toNat (show x / 10 % 10 < 10 by omega),
    digitChar_toNat (show x % 10 < 10 by omega),
    digitChar_toNat (show y / 1000 < 10 by omega),
    digitChar_toNat (show y / 100 % 10 < 10 by omega),
    digitChar_toNat (show y / 10 % 10 < 10 by omega),
    digitChar_toNat (show y % 10 < 10 by omega)]
  split_ifs <;> first | rfl | omega

theorem lexLt_fmt2_append (x y : Nat) (r s : List Char) (hx : x < 100) (hy : y < 100) :
    lexLt (fmt2 x ++ r) (fmt2 y ++ s) =
      if x < y then true else if y < x then false else lexLt r s := by
  simp only [fmt2, List.cons_append, List.nil_append, lexLt_cons]
  rw [digitChar_toNat (show x / 10 < 10 by omega),
    digitChar_toNat (show x % 10 < 10 by omega),
    digitChar_toNat (show y / 10 < 10 by omega),
    digitChar_toNat (show y % 10 < 10 by omega)]
  split_ifs <;> first | rfl | omega

theorem lexLt_irrefl : ∀ (a : List Char), lexLt a a = false
  | [] => rfl
  | a :: as => by
    rw [lexLt_cons]
    simp [Nat.lt_irrefl, lexLt_irrefl as]

theorem strLt_fmtMonth {i j : Nat} (hi : i < 120000) (hj : j < 120000) :
    strLt (fmtMonth i) (fmtMonth j) = true ↔ i < j := by
  show lexLt (fmt4 (i / 12) ++ '-' :: fmt2 (i % 12 + 1))
      (fmt4 (j / 12) ++ '-' :: fmt2 (j % 12 + 1)) = true ↔ i < j
  rw [lexLt_fmt4_append _ _ _ _ (by omega) (by omega)]
  rw [show ('-' :: fmt2 (i % 12 + 1) : List Char) = [('-' : Char)] ++ (fmt2 (i % 12 + 1) ++ [])
      by simp,
            show ('-' :: fmt2 (j % 12 + 1) : List Char) = [('-' : Char)] ++ (fmt2 (j % 12 + 1) ++ [])
      by simp]
  rw [show lexLt ([('-' : Char)] ++ (fmt2 (i % 12 + 1) ++ []))
        ([('-' : Char)] ++ (fmt2 (j % 12 + 1) ++ [])) =
      lexLt (fmt2 (i % 12 + 1) ++ []) (fmt2 (j % 12 + 1) ++ []) by
    simp [lexLt_cons]]
  rw [lexLt_fmt2_append _ _ _ _ (by omega) (by omega)]
  split_ifs <;> simp_all [show lexLt ([] : List Char) [] = false from rfl] <;> omega

theorem strLe_fmtMonth {i j : Nat} (hi : i < 120000) (hj : j < 120000) :
    strLe (fmtMonth i) (fmtMonth j) = true ↔ i ≤ j := by
  simp only [strLe, Bool.not_eq_true']
  constructor
  · intro h
    by_contra hle
    rw [(strLt_fmtMonth hj hi).mpr (by omega)] at h
    exact absurd h (by simp)
  · intro h
    cases heq : strLt (fmtMonth j) (fmtMonth i)
    · rfl
    · exact absurd ((strLt_fmtMonth hj hi).mp heq) (by omega)

theorem fmtMonth_injOn {i j : Nat} (hi : i < 120000) (hj : j < 120000)
    (h : fmtMonth i = fmtMonth j) : i = j := by
  by_contra hne
  rcases Nat.lt_or_ge i j with hlt | hge
  · have h1 := (strLt_fmtMonth hi hj).mpr hlt
    rw [h] at h1
    simp [strLt, lexLt_irrefl] at h1
  · have h1 := (strLt_fmtMonth hj hi).mpr (by omega)
    rw [h] at h1
    simp [strLt, lexLt_irrefl] at h1

/-! ### JavaScript `Map` embedded as an association list in insertion order -/

/-- `Map.set`: replace the value at an existing key in place, else append. -/
def jset {α : Type} : List (String × α) → String → α → List (String × α)
  | [], k, v => [(k, v)]
  | (k', v') :: rest, k, v =>
    if k' = k then (k, v) :: rest else (k', v') :: jset rest k v

/-- `Map.get`: the value stored at a key, if present. -/
def jget {α : Type} : List (String × α) → String → Option α
  | [], _ => none
  | (k', v') :: rest, k => if k' = k then some v' else jget rest k

theorem jget_jset_self {α : Type} (m : List (String × α)) (k : String) (v : α) :
    jget (jset m k v) k = some v := by
  induction m with
  | nil => simp [jset, jget]
  | cons p rest ih =>
    obtain ⟨k', v'⟩ := p
    by_cases h : k' = k <;> simp [jset, jget, h, ih]

theorem jget_jset_ne {α : Type} (m : List (String × α)) (k k' : String) (v : α)
    (h : k' ≠ k) : jget (jset m k v) k' = jget m k' := by
  induction m with
  | nil => simp [jset, jget, Ne.symm h]
  | cons p rest ih =>
    obtain ⟨k'', v''⟩ := p
    by_cases h2 : k'' = k
    · subst h2
      simp [jset, jget, Ne.symm h]
    · by_cases h3 : k'' = k'
      · subst h3
        simp [jset, jget, h2]
      · simp [jset, jget, h2, h3, ih]

theorem mem_keys_jset {α : Type} (m : List (String × α)) (k k'' : String) (v : α) :
    k'' ∈ (jset m k v).map Prod.fst ↔ k'' ∈ m.map Prod.fst ∨ k'' = k := by
  induction m with
  | nil => simp [jset]
  | cons p rest ih =>
    obtain ⟨k', v'⟩ := p
    by_cases h : k' = k
    · subst h
      simp [jset]
      tauto
    · simp [jset, h, ih]
      tauto

theorem nodup_keys_jset {α : Type} {m : List (String × α)} {k : String} {v : α}
    (h : (m.map Prod.fst).Nodup) : ((jset m k v).map Prod.fst).Nodup := by
  induction m with
  | nil => simp [jset]
  | cons p rest ih =>
    obtain ⟨k', v'⟩ := p
    simp only [List.map_cons, List.nodup_cons] at h
    by_cases h2 : k' = k
    · subst h2
      simpa [jset] using h
    · simp only [jset, if_neg h2, List.map_cons, List.nodup_cons]
      refine ⟨fun hmem => ?_, ih h.2⟩
      rcases (mem_keys_jset rest k k' v).mp hmem with hm | hm
      · exact h.1 hm
      · exact h2 hm

theorem jget_eq_none_iff {α : Type} (m : List (String × α)) (k : String) :
    jget m k = none ↔ ∀ p ∈ m, p.1 ≠ k := by
  induction m with
  | nil => simp [jget]
  | cons p rest ih =>
    obtain ⟨k', v'⟩ := p
    by_cases h : k' = k <;> simp [jget, h, ih]

theorem jget_of_mem {α : Type} {m : List (String × α)} {k : String} {v : α}
    (hnd : (m.map Prod.fst).Nodup) (hmem : (k, v) ∈ m) : jget m k = some v := by
  induction m with
  | nil => simp at hmem
  | cons p rest ih =>
    obtain ⟨k', v'⟩ := p
    simp only [List.map_cons, List.nodup_cons] at hnd
    rcases List.mem_cons.mp hmem with h | h
    · obtain ⟨h1, h2⟩ := Prod.mk.injEq .. ▸ h
      simp [jget, h1.symm, h2]
    · have hne : k' ≠ k := by
        intro he
        subst he
        exact hnd.1 (List.mem_map.mpr ⟨(k', v), h, rfl⟩)
      simp [jget, hne, ih hnd.2 h]

theorem mem_of_jget {α : Type} {m : List (String × α)} {k : String} {v : α}
    (h : jget m k = some v) : (k, v) ∈ m := by
  induction m with
  | nil => simp [jget] at h
  | cons p rest ih =>
    obtain ⟨k', v'⟩ := p
    by_cases h2 : k' = k
    · subst h2
      simp [jget] at h
      simp [h]
    · simp [jget, h2] at h
      simp [ih h]

/-! ### Monthly counters -/

/-- A pair of monthly counters, visits and downloads. -/
@[ext] structure VD where
  visits : Int
  downloads : Int
deriving DecidableEq

instance : Zero VD := ⟨⟨0, 0⟩⟩
instance : Add VD := ⟨fun a b => ⟨a.visits + b.visits, a.downloads + b.downloads⟩⟩

@[simp] theorem VD.add_visits (a b : VD) : (a + b).visits = a.visits + b.visits := rfl
@[simp] theorem VD.add_downloads (a b : VD) : (a + b).downloads = a.downloads + b.downloads := rfl
@[simp] theorem VD.zero_visits : (0 : VD).visits = 0 := rfl
@[simp] theorem VD.zero_downloads : (0 : VD).downloads = 0 := rfl

instance : AddCommMonoid VD where
  add_assoc a b c := by ext <;> simp [Int.add_assoc]
  zero_add a := by ext <;> simp
  add_zero a := by ext <;> simp
  add_comm a b := by ext <;> simp [Int.add_comm]
  nsmul := nsmulRec

@[simp] theorem VD.sum_visits (l : List VD) : l.sum.visits = (l.map VD.visits).sum := by
  induction l with
  | nil => rfl
  | cons x xs ih => simp [ih]

@[simp] theorem VD.sum_downloads (l : List VD) : l.sum.downloads = (l.map VD.downloads).sum := by
  induction l with
  | nil => rfl
  | cons x xs ih => simp [ih]

/-- The counters a month-keyed map holds for a month, zero when absent
(`map.get(month) || { visits: 0, downloads: 0 }`). -/
def valueAt (m : List (String × VD)) (mo : String) : VD := (jget m mo).getD 0

/-- One step of the additive merge:
`map.set(month, (map.get(month) || zero) + v)`. -/
def addMonth (m : List (String × VD)) (mo : String) (v : VD) : List (String × VD) :=
  jset m mo (valueAt m mo + v)

/-- Fold a batch of `(month, counters)` records additively into a map, in
order — the common accumulation loop of both scripts. -/
def mergeRecords (m : List (String × VD)) (us : List (String × VD)) : List (String × VD) :=
  us.foldl (fun acc p => addMonth acc p.1 p.2) m

theorem valueAt_addMonth (m : List (String × VD)) (mo mo' : String) (v : VD) :
    valueAt (addMonth m mo v) mo' =
      if mo' = mo then valueAt m mo' + v else valueAt m mo' := by
  by_cases h : mo' = mo
  · subst h
    simp [valueAt, addMonth, jget_jset_self]
  · simp [valueAt, addMonth, jget_jset_ne _ _ _ _ h, h]

theorem nodup_keys_addMonth {m : List (String × VD)} {mo : String} {v : VD}
    (h : (m.map Prod.fst).Nodup) : ((addMonth m mo v).map Prod.fst).Nodup :=
  nodup_keys_jset h

theorem valueAt_mergeRecords (m : List (String × VD)) (us : List (String × VD)) (mo : String) :
    valueAt (mergeRecords m us) mo =
      valueAt m mo + ((us.filter (fun p => p.1 = mo)).map Prod.snd).sum := by
  induction us generalizing m with
  | nil => simp [mergeRecords]
  | cons u us ih =>
    rw [show mergeRecords m (u :: us) = mergeRecords (addMonth m u.1 u.2) us from rfl, ih,
      valueAt_addMonth]
    by_cases h : u.1 = mo
    · simp [h, List.filter_cons, add_assoc]
    · simp [h, List.filter_cons, Ne.symm h]

theorem nodup_keys_mergeRecords {m : List (String × VD)} (us : List (String × VD))
    (h : (m.map Prod.fst).Nodup) : ((mergeRecords m us).map Prod.fst).Nodup := by
  induction us generalizing m with
  | nil => exact h
  | cons u us ih =>
    exact ih (nodup_keys_addMonth h)

/-! ### Stability of the embedded `Array.prototype.sort`

`List.insertionSort r` (Mathlib) is the embedding of `Array.prototype.sort`
with a comparator `c`, where `r a b` means `c(a, b) ≤ 0`. Mathlib provides
the permutation and sortedness facts; stability (elements the comparator
ties keep their input order) is proved here as a `filter` identity. -/

section StableSort

variable {α : Type} (r : α → α → Prop) [DecidableRel r]

theorem filter_orderedInsert (p : α → Bool) (x : α) (l : List α)
    (hx : p x = true → ∀ b ∈ l, p b = true → r x b) :
    (l.orderedInsert r x).filter p =
      if p x then x :: l.filter p else l.filter p := by
  induction l with
  | nil =>
    by_cases hpx : p x <;> simp [hpx]
  | cons y ys ih =>
    by_cases hr : r x y
    · by_cases hpx : p x <;> simp [List.orderedInsert, hr, List.filter_cons, hpx]
    · by_cases hpy : p y
      · by_cases hpx : p x
        · exact absurd (hx hpx y (List.mem_cons_self y ys) hpy) hr
        · simp only [List.orderedInsert, if_neg hr, List.filter_cons, hpy, hpx]
          rw [ih (fun hpx' => absurd hpx' (by simp [hpx]))]
          simp [hpx]
      · simp only [List.orderedInsert, if_neg hr, List.filter_cons, hpy]
        rw [ih (fun hpx' b hb hpb => hx hpx' b (List.mem_cons_of_mem y hb) hpb)]
        simp

theorem filter_insertionSort (p : α → Bool) (l : List α)
    (hp : ∀ a b, p a = true → p b = true → r a b) :
    (l.insertionSort r).filter p = l.filter p := by
  induction l with
  | nil => rfl
  | cons x xs ih =>
    show ((xs.insertionSort r).orderedInsert r x).filter p = _
    rw [filter_orderedInsert r p x _ (fun hpx b _ hpb => hp x b hpx hpb), ih]
    by_cases hpx : p x <;> simp [List.filter_cons, hpx]

/-- `List.sorted_insertionSort` with the total/transitive assumptions as plain
hypotheses, convenient for comparator-specific relations. -/
theorem sorted_insertionSort_of (htot : ∀ a b, r a b ∨ r b a)
    (htrans : ∀ a b c, r a b → r b c → r a c) (l : List α) :
    (l.insertionSort r).Sorted r :=
  @List.sorted_insertionSort α r _ ⟨htot⟩ ⟨fun _ _ _ => htrans _ _ _⟩ l

end StableSort

/-! ### Data model (`src/lib/types.ts`) -/

/-- `DatagouvDataset.organization` (nullable in the API). -/
structure Organization where
  id : String
  name : String
  slug : String
  logo : String
deriving DecidableEq

/-- `DatagouvDataset.metrics`. -/
structure DatasetApiMetrics where
  views : Int
  downloads : Int
  followers : Int
  reuses : Int
deriving DecidableEq

/-- Dataset metadata from the data.gouv.fr API (`DatagouvDataset`). -/
structure DatagouvDataset where
  id : String
  title : String
  slug : String
  description : String
  page : String
  organization : Option Organization
  metrics : DatasetApiMetrics
  created_at : String
  last_modified : String
deriving DecidableEq

/-- One record of the metric API (`MetricApiDatasetEntry`); a `null`
`monthly_download_resource` is `none`. `uid` embeds the `__id` field. -/
structure MetricApiDatasetEntry where
  uid : Int
  dataset_id : String
  metric_month : String
  monthly_visit : Int
  monthly_download_resource : Option Int
deriving DecidableEq

/-- `MonthlyStats`. -/
structure MonthlyStats where
  month : String
  visits : Int
  downloads : Int
deriving DecidableEq

/-- `GlobalStats`. `lastUpdate`, a wall-clock timestamp, is omitted from the
embedding; no claim concerns it. -/
structure GlobalStats where
  totalVisits : Int
  totalDownloads : Int
  totalDatasets : Int
  startDate : String
  monthlyStats : List MonthlyStats
deriving DecidableEq

/-- `DatasetSummary`. -/
structure DatasetSummary where
  id : String
  title : String
  slug : String
  organization : String
  organizationId : String
deriving DecidableEq

/-- `DatasetRanking`. The `trend` percentage is embedded as `ℚ`. -/
structure DatasetRanking where
  id : String
  title : String
  slug : String
  organization : String
  organizationId : String
  value : Int
  previousValue : Int
  trend : ℚ
  rank : Nat
deriving DecidableEq

/-- `DatasetStats`. -/
structure DatasetStats where
  id : String
  title : String
  slug : String
  organization : String
  organizationId : String
  url : String
  totalVisits : Int
  totalDownloads : Int
  monthlyStats : List MonthlyStats
  firstMonth : String
  lastMonth : String
deriving DecidableEq

/-- `DatasetsIndex` (`lastUpdate` timestamp omitted). -/
structure DatasetsIndex where
  datasets : List DatasetSummary
deriving DecidableEq

/-- The per-period pair of ranking lists of `TopDatasetsData`. -/
structure PerMetricRankings where
  visits : List DatasetRanking
  downloads : List DatasetRanking
deriving DecidableEq

/-- `TopDatasetsData` (`lastUpdate` timestamp omitted). -/
structure TopDatasetsData where
  week : PerMetricRankings
  month : PerMetricRankings
  year : PerMetricRankings
  allTime : PerMetricRankings
deriving DecidableEq

/-- `Period`. -/
inductive Period
  | week
  | month
  | year
  | allTime
deriving DecidableEq

/-- `Metric`. -/
inductive Metric
  | visits
  | downloads
deriving DecidableEq

/-! ### JavaScript `||` defaults -/

/-- `x || d` for a nullable JavaScript number: `null` and `0` are falsy. -/
def jsOrInt (x : Option Int) (d : Int) : Int :=
  match x with
  | none => d
  | some n => if n = 0 then d else n

/-- `x || d` for a possibly-`undefined` JavaScript string: `undefined` and
`''` are falsy. -/
def jsOrStr (x : Option String) (d : String) : String :=
  match x with
  | none => d
  | some s => if s = "" then d else s

/-! ### `scripts/sync-stats.ts`: per-dataset series -/

/-- The in-memory per-dataset series (`DatasetMetrics`). -/
structure DatasetMetrics where
  datasetId : String
  monthlyStats : List (String × VD)
  totalVisits : Int
  totalDownloads : Int
deriving DecidableEq

/-- The counters one metric-API record stores:
`{ visits: entry.monthly_visit || 0, downloads: entry.monthly_download_resource || 0 }`. -/
def entryVD (e : MetricApiDatasetEntry) : VD :=
  ⟨jsOrInt (some e.monthly_visit) 0, jsOrInt e.monthly_download_resource 0⟩

/-- The monthly map `fetchDatasetMetrics` builds from the records of all
fetched pages in order; `Map.set` overwrites the month key. -/
def fetchDatasetMetricsMap (entries : List MetricApiDatasetEntry) : List (String × VD) :=
  entries.foldl (fun m e => jset m e.metric_month (entryVD e)) []

/-- `fetchDatasetMetrics` (pure part, the fetched records as input): build
the monthly map, then recompute the totals by a full resum over its values. -/
def fetchDatasetMetrics (datasetId : String) (entries : List MetricApiDatasetEntry) :
    DatasetMetrics :=
  let monthlyStats := fetchDatasetMetricsMap entries
  { datasetId := datasetId
    monthlyStats := monthlyStats
    totalVisits := (monthlyStats.map (fun p => p.2.visits)).sum
    totalDownloads := (monthlyStats.map (fun p => p.2.downloads)).sum }

/-! ### `scripts/sync-stats.ts`: global aggregates -/

/-- Comparator relation of `.sort((a, b) => a[0].localeCompare(b[0]))` on
month-keyed entries: on fixed-width digit-and-dash keys the default
collation coincides with code-unit order. -/
def monthPairLe (a b : String × VD) : Prop := strLe a.1 b.1 = true

instance : DecidableRel monthPairLe := fun _ _ => inferInstanceAs (Decidable (_ = true))

/-- The `monthlyAggregates` map of `calculateGlobalStats`: every dataset's
monthly entries folded additively into one month-keyed map. -/
def monthlyAggregatesOf (allMetrics : List DatasetMetrics) : List (String × VD) :=
  allMetrics.foldl (fun acc d => mergeRecords acc d.monthlyStats) []

/-- `calculateGlobalStats`. -/
def calculateGlobalStats (allMetrics : List DatasetMetrics) : GlobalStats :=
  let sortedMonths := (monthlyAggregatesOf allMetrics).insertionSort monthPairLe
  { totalVisits := (allMetrics.map (fun d => d.totalVisits)).sum
    totalDownloads := (allMetrics.map (fun d => d.totalDownloads)).sum
    totalDatasets := allMetrics.length
    startDate := jsOrStr (sortedMonths.head?.map Prod.fst) "2022-07"
    monthlyStats := sortedMonths.map (fun p => MonthlyStats.mk p.1 p.2.visits p.2.downloads) }

/-! ### `scripts/sync-stats.ts`: rankings -/

/-- `TOP_DATASETS_COUNT`. -/
def TOP_DATASETS_COUNT : Nat := 100

/-- `getMonthsAgo(k)` relative to the anchor month index: the current date
shifted back `k` months, formatted "YYYY-MM". -/
def getMonthsAgo (anchor k : Nat) : String := fmtMonth (anchor - k)

/-- `getCurrentMonth()`. -/
def getCurrentMonth (anchor : Nat) : String := fmtMonth anchor

/-- `getStatsForPeriod`: sum the series over the months inside
`[startMonth, endMonth]`, bounds compared inclusively as strings. -/
def getStatsForPeriod (metrics : DatasetMetrics) (startMonth endMonth : String) : VD :=
  metrics.monthlyStats.foldl
    (fun acc p => if strLe startMonth p.1 && strLe p.1 endMonth then acc + p.2 else acc) 0

/-- One entry of the `periods` table. -/
structure PeriodConfig where
  start : String
  prevStart : String
  prevEnd : String
deriving DecidableEq

/-- The `periods` table of `calculateTopDatasets`. -/
def periods (anchor : Nat) (p : Period) : PeriodConfig :=
  match p with
  | .week => ⟨getMonthsAgo anchor 0, getMonthsAgo anchor 1, getMonthsAgo anchor 1⟩
  | .month => ⟨getMonthsAgo anchor 1, getMonthsAgo anchor 2, getMonthsAgo anchor 2⟩
  | .year => ⟨getMonthsAgo anchor 12, getMonthsAgo anchor 24, getMonthsAgo anchor 13⟩
  | .allTime => ⟨"2022-07", "2022-07", "2022-07"⟩

/-- `createRanking`. -/
def createRanking (metrics : DatasetMetrics) (metadata : DatagouvDataset)
    (value previousValue : Int) (rank : Nat) : DatasetRanking :=
  { id := metrics.datasetId
    title := metadata.title
    slug := metadata.slug
    organization := jsOrStr (metadata.organization.map Organization.name) "Inconnu"
    organizationId := jsOrStr (metadata.organization.map Organization.id) ""
    value := value
    previousValue := previousValue
    trend :=
      if previousValue > 0 then (((value : ℚ) - previousValue) / previousValue) * 100 else 0
    rank := rank }

/-- The intermediate record of `datasetsWithStats`. -/
structure WithStats where
  metrics : DatasetMetrics
  metadata : DatagouvDataset
  current : VD
  previous : VD
deriving DecidableEq

/-- The current-window counters of one dataset for one period:
`getStatsForPeriod(m, periodConfig.start)`, the end bound defaulting to the
current month. -/
def currentOf (m : DatasetMetrics) (anchor : Nat) (p : Period) : VD :=
  getStatsForPeriod m (periods anchor p).start (getCurrentMonth anchor)

/-- The previous-window counters of one dataset for one period: zero for
`allTime` (which has no previous window), else
`getStatsForPeriod(m, periodConfig.prevStart, periodConfig.prevEnd)`. -/
def previousOf (m : DatasetMetrics) (anchor : Nat) (p : Period) : VD :=
  if p ≠ Period.allTime then
    getStatsForPeriod m (periods anchor p).prevStart (periods anchor p).prevEnd
  else 0

/-- The `datasetsWithStats` stage of `calculateTopDatasets` for one period:
resolve metadata (dropping unresolved datasets) and compute the window
sums. -/
def datasetsWithStats (allMetrics : List DatasetMetrics)
    (metadataMap : List (String × DatagouvDataset)) (anchor : Nat) (p : Period) :
    List WithStats :=
  allMetrics.filterMap (fun m =>
    match jget metadataMap m.datasetId with
    | none => none
    | some metadata => some ⟨m, metadata, currentOf m anchor p, previousOf m anchor p⟩)

/-- Select a metric's counter. -/
def metricOf (mc : Metric) (v : VD) : Int :=
  match mc with
  | .visits => v.visits
  | .downloads => v.downloads

/-- Comparator relation of `.sort((a, b) => b.current[mc] - a.current[mc])`:
`a` may stay before `b` iff the comparator value is `≤ 0`. -/
def byMetricGe (mc : Metric) (a b : WithStats) : Prop :=
  metricOf mc b.current ≤ metricOf mc a.current

instance (mc : Metric) : DecidableRel (byMetricGe mc) :=
  fun _ _ => inferInstanceAs (Decidable (_ ≤ _))

/-- `.map((d, i) => createRanking(…, i + 1))`, ranks counted from `n`. -/
def rankLoop (mk : WithStats → Nat → DatasetRanking) :
    Nat → List WithStats → List DatasetRanking
  | _, [] => []
  | n, d :: ds => mk d n :: rankLoop mk (n + 1) ds

/-- One ranking list of `calculateTopDatasets`: sort the period's entries
descending by the metric's current-window value (stable), truncate to the
top `TOP_DATASETS_COUNT`, and attach 1-based ranks. -/
def topBy (allMetrics : List DatasetMetrics) (metadataMap : List (String × DatagouvDataset))
    (anchor : Nat) (p : Period) (mc : Metric) : List DatasetRanking :=
  let dws := datasetsWithStats allMetrics metadataMap anchor p
  let sorted := dws.insertionSort (byMetricGe mc)
  rankLoop
    (fun d i =>
      createRanking d.metrics d.metadata (metricOf mc d.current) (metricOf mc d.previous) i)
    1 (sorted.take TOP_DATASETS_COUNT)

/-- `calculateTopDatasets`. -/
def calculateTopDatasets (allMetrics : List DatasetMetrics)
    (metadataMap : List (String × DatagouvDataset)) (anchor : Nat) : TopDatasetsData :=
  { week := ⟨topBy allMetrics metadataMap anchor .week .visits,
      topBy allMetrics metadataMap anchor .week .downloads⟩
    month := ⟨topBy allMetrics metadataMap anchor .month .visits,
      topBy allMetrics metadataMap anchor .month .downloads⟩
    year := ⟨topBy allMetrics metadataMap anchor .year .visits,
      topBy allMetrics metadataMap anchor .year .downloads⟩
    allTime := ⟨topBy allMetrics metadataMap anchor .allTime .visits,
      topBy allMetrics metadataMap anchor .allTime .downloads⟩ }

/-- The ranking list of a period and metric. -/
def rankingOf (t : TopDatasetsData) (p : Period) (mc : Metric) : List DatasetRanking :=
  match p, mc with
  | .week, .visits => t.week.visits
  | .week, .downloads => t.week.downloads
  | .month, .visits => t.month.visits
  | .month, .downloads => t.month.downloads
  | .year, .visits => t.year.visits
  | .year, .downloads => t.year.downloads
  | .allTime, .visits => t.allTime.visits
  | .allTime, .downloads => t.allTime.downloads

/-! ### `scripts/sync-stats.ts`: dataset directory

`String.prototype.localeCompare(·, 'fr')` is a runtime collation facility
external to this repository. Modelled from the spec: locale-aware collation
appropriate to the target language, embedded at primary strength for the
characters appearing in dataset titles — diacritics fold to base letters
and uppercase to lowercase before code-unit comparison; titles the fold
ties keep their input order (the stable sort's behaviour for comparator
value 0). -/
def frFold (c : Char) : Char :=
  match c with
  | 'À' | 'Â' | 'Ä' | 'à' | 'â' | 'ä' => 'a'
  | 'Ç' | 'ç' => 'c'
  | 'É' | 'È' | 'Ê' | 'Ë' | 'é' | 'è' | 'ê' | 'ë' => 'e'
  | 'Î' | 'Ï' | 'î' | 'ï' => 'i'
  | 'Ô' | 'Ö' | 'ô' | 'ö' => 'o'
  | 'Ù' | 'Û' | 'Ü' | 'ù' | 'û' | 'ü' => 'u'
  | 'Ÿ' | 'ÿ' => 'y'
  | _ => c.toLower

/-- The primary-strength collation key of a title. -/
def frKey (s : String) : List Char := s.data.map frFold

/-- Comparator relation of `.sort((a, b) => a.title.localeCompare(b.title, 'fr'))`:
`a` may stay before `b` iff the comparator value is `≤ 0`. -/
def summaryLe (a b : DatasetSummary) : Prop := lexLt (frKey b.title) (frKey a.title) = false

instance : DecidableRel summaryLe := fun _ _ => inferInstanceAs (Decidable (_ = false))

/-- The `DatasetSummary` pushed by `createDatasetsIndex` for one map entry. -/
def summaryOf (id : String) (metadata : DatagouvDataset) : DatasetSummary :=
  { id := id
    title := metadata.title
    slug := metadata.slug
    organization := jsOrStr (metadata.organization.map Organization.name) "Inconnu"
    organizationId := jsOrStr (metadata.organization.map Organization.id) "" }

/-- `createDatasetsIndex`: one summary per metadata-map entry, sorted by
title under the locale collation. -/
def createDatasetsIndex (metadataMap : List (String × DatagouvDataset)) : DatasetsIndex :=
  ⟨(metadataMap.map (fun q => summaryOf q.1 q.2)).insertionSort summaryLe⟩

/-- `createDatasetStats`. -/
def createDatasetStats (metrics : DatasetMetrics) (metadata : DatagouvDataset) : DatasetStats :=
  let monthlyStats := (metrics.monthlyStats.insertionSort monthPairLe).map
    (fun p => MonthlyStats.mk p.1 p.2.visits p.2.downloads)
  { id := metrics.datasetId
    title := metadata.title
    slug := metadata.slug
    organization := jsOrStr (metadata.organization.map Organization.name) "Inconnu"
    organizationId := jsOrStr (metadata.organization.map Organization.id) ""
    url := jsOrStr (some metadata.page)
      ("https://www.data.gouv.fr/fr/datasets/" ++ metadata.slug ++ "/")
    totalVisits := metrics.totalVisits
    totalDownloads := metrics.totalDownloads
    monthlyStats := monthlyStats
    firstMonth := jsOrStr (monthlyStats.head?.map MonthlyStats.month) ""
    lastMonth := jsOrStr (monthlyStats.getLast?.map MonthlyStats.month) "" }

/-! ### `scripts/sync-incremental.ts` -/

/-- `DatasetMonthlyUpdate`. -/
structure DatasetMonthlyUpdate where
  datasetId : String
  month : String
  visits : Int
  downloads : Int
deriving DecidableEq

/-- The counters of one update record. -/
def updateVD (u : DatasetMonthlyUpdate) : VD := ⟨u.visits, u.downloads⟩

/-- `Number()` on a string of decimal digits. -/
def toDigitsNat (l : List Char) : Nat := l.foldl (fun n c => n * 10 + (c.toNat - 48)) 0

/-- `getNextMonth`: parse "YYYY-MM" and roll forward one month through
`Date.UTC(year, monthNum, 1)` — JavaScript months are 0-indexed, so passing
the 1-indexed `monthNum` yields the next month, December rolling over to
January. The split at `'-'` is embedded positionally; on a string that is
not of the 7-character shape the JavaScript original produces an invalid
date, embedded as returning the input unchanged. -/
def getNextMonth (month : String) : String :=
  match month.data with
  | [y3, y2, y1, y0, _, m1, m0] =>
    fmtMonth (toDigitsNat [y3, y2, y1, y0] * 12 + toDigitsNat [m1, m0])
  | _ => month

/-- Month index of a well-formed "YYYY-MM" string (positional parse). -/
def monthIdx (month : String) : Nat :=
  match month.data with
  | [y3, y2, y1, y0, _, m1, m0] =>
    toDigitsNat [y3, y2, y1, y0] * 12 + toDigitsNat [m1, m0] - 1
  | _ => 0

/-- Body of the `while (current <= now)` loop of `getMonthsToFetch`. `fuel`
bounds the iteration count; the caller passes a bound the loop provably
never exhausts on well-formed months. -/
def monthsLoop : Nat → String → String → List String
  | 0, _, _ => []
  | fuel + 1, current, now =>
    if strLe current now then current :: monthsLoop fuel (getNextMonth current) now
    else []

/-- `getMonthsToFetch(lastMonth)`: walk from the successor of `lastMonth`
while the month is `<=` the current month `now`. -/
def getMonthsToFetch (lastMonth now : String) : List String :=
  monthsLoop (monthIdx now + 1) (getNextMonth lastMonth) now

/-- Load a stored `MonthlyStats` array into a month-keyed map. -/
def loadMonthly (existing : List MonthlyStats) : List (String × VD) :=
  existing.foldl (fun m stat => jset m stat.month ⟨stat.visits, stat.downloads⟩) []

/-- `mergeMonthlyData`: load the existing months into a map, additively fold
the new update records into it, and return the entries sorted
chronologically. -/
def mergeMonthlyData (existing : List MonthlyStats) (newUpdates : List DatasetMonthlyUpdate) :
    List MonthlyStats :=
  let monthMap := mergeRecords (loadMonthly existing)
    (newUpdates.map (fun u => (u.month, updateVD u)))
  (monthMap.insertionSort monthPairLe).map (fun p => MonthlyStats.mk p.1 p.2.visits p.2.downloads)

/-- `updateGlobalStats`: merge the updates into the global monthly series and
recompute the running totals by a full resum over the merged series. -/
def updateGlobalStats (existing : GlobalStats) (allUpdates : List DatasetMonthlyUpdate)
    (totalDatasets : Int) : GlobalStats :=
  let mergedMonthly := mergeMonthlyData existing.monthlyStats allUpdates
  { totalVisits := (mergedMonthly.map MonthlyStats.visits).sum
    totalDownloads := (mergedMonthly.map MonthlyStats.downloads).sum
    totalDatasets := totalDatasets
    startDate := existing.startDate
    monthlyStats := mergedMonthly }

/-- The month-keyed map `updateDatasetStats` builds: the existing stored
months (when a stored file exists) with the updates belonging to this
dataset additively folded in. -/
def updateMonthlyMap (datasetId : String) (existing : Option DatasetStats)
    (newData : List DatasetMonthlyUpdate) : List (String × VD) :=
  mergeRecords
    (match existing with
      | some ex => loadMonthly ex.monthlyStats
      | none => [])
    ((newData.filter (fun u => u.datasetId = datasetId)).map (fun u => (u.month, updateVD u)))

/-- `updateDatasetStats` (pure part; the stored `DatasetStats` file of the
dataset — possibly absent — is an input): load the existing monthly map,
additively merge this dataset's updates into it, and rebuild the record
with fully recomputed totals. -/
def updateDatasetStats (datasetId : String) (existing : Option DatasetStats)
    (newData : List DatasetMonthlyUpdate) (metadata : DatagouvDataset) : DatasetStats :=
  let monthlyMap := updateMonthlyMap datasetId existing newData
  let monthlyStats := (monthlyMap.insertionSort monthPairLe).map
    (fun p => MonthlyStats.mk p.1 p.2.visits p.2.downloads)
  { id := datasetId
    title := metadata.title
    slug := metadata.slug
    organization := jsOrStr (metadata.organization.map Organization.name) "Inconnu"
    organizationId := jsOrStr (metadata.organization.map Organization.id) ""
    url := jsOrStr (some metadata.page)
      ("https://www.data.gouv.fr/fr/datasets/" ++ metadata.slug ++ "/")
    totalVisits := (monthlyStats.map MonthlyStats.visits).sum
    totalDownloads := (monthlyStats.map MonthlyStats.downloads).sum
    monthlyStats := monthlyStats
    firstMonth := jsOrStr (monthlyStats.head?.map MonthlyStats.month) ""
    lastMonth := jsOrStr (monthlyStats.getLast?.map MonthlyStats.month) "" }

/-- The incremental run's global-series update (pure core of steps 2, 3 and
5 of `sync-incremental.ts`'s `main`): compute the months to fetch from the
last stored month and the current month; when none are missing the run
stops before fetching or writing anything — the stored state is returned
unchanged with the no-op flag `true` — otherwise the records fetched for
exactly those months are merged. `fetch` abstracts `fetchNewMonthData`;
counting `totalDatasets` and the per-dataset and ranking updates are
separate steps not embedded here. -/
def syncIncrementalGlobal (existing : GlobalStats)
    (fetch : String → List DatasetMonthlyUpdate) (anchor : Nat) (totalDatasets : Int) :
    GlobalStats × Bool :=
  let lastMonth := (existing.monthlyStats.getLast?.map MonthlyStats.month).getD ""
  let monthsToFetch := getMonthsToFetch lastMonth (getCurrentMonth anchor)
  if monthsToFetch.isEmpty then (existing, true)
  else
    let allUpdates := (monthsToFetch.map fetch).flatten
    (updateGlobalStats existing allUpdates totalDatasets, false)

/-! ### Derived observation helpers used in the theorem statements -/

/-- The summed counters the entries of a month-keyed list hold for one month
(a raw record list may repeat a month; a `Map`-backed list holds it once). -/
def entriesSum (m : List (String × VD)) (mo : String) : VD :=
  ((m.filter (fun p => p.1 = mo)).map Prod.snd).sum

/-- A dataset's visits at a month, zero when absent. -/
def visitsAt (d : DatasetMetrics) (mo : String) : Int := (valueAt d.monthlyStats mo).visits

/-- A dataset's downloads at a month, zero when absent. -/
def downloadsAt (d : DatasetMetrics) (mo : String) : Int := (valueAt d.monthlyStats mo).downloads

/-- The counters a stored `MonthlyStats` array holds for a month, zero when
the month is absent. -/
def seriesAt (l : List MonthlyStats) (mo : String) : VD :=
  ((l.find? (fun s => s.month = mo)).map (fun s => ⟨s.visits, s.downloads⟩)).getD 0

theorem jsOrInt_some_zero (n : Int) : jsOrInt (some n) 0 = n := by
  by_cases h : n = 0 <;> simp [jsOrInt, h]

theorem jsOrInt_none (d : Int) : jsOrInt none d = d := rfl

theorem valueAt_nil (mo : String) : valueAt [] mo = 0 := rfl

theorem valueAt_foldl_mergeRecords (allMetrics : List DatasetMetrics)
    (m : List (String × VD)) (mo : String) :
    valueAt (allMetrics.foldl (fun acc d => mergeRecords acc d.monthlyStats) m) mo =
      valueAt m mo + (allMetrics.map (fun d => entriesSum d.monthlyStats mo)).sum := by
  induction allMetrics generalizing m with
  | nil => simp
  | cons d rest ih =>
    rw [List.foldl_cons, ih, valueAt_mergeRecords]
    simp [entriesSum, add_assoc]

theorem valueAt_monthlyAggregatesOf (allMetrics : List DatasetMetrics) (mo : String) :
    valueAt (monthlyAggregatesOf allMetrics) mo =
      (allMetrics.map (fun d => entriesSum d.monthlyStats mo)).sum := by
  have h := valueAt_foldl_mergeRecords allMetrics [] mo
  rw [valueAt_nil, zero_add] at h
  exact h

theorem nodup_keys_monthlyAggregatesOf (allMetrics : List DatasetMetrics) :
    ((monthlyAggregatesOf allMetrics).map Prod.fst).Nodup := by
  suffices h : ∀ m : List (String × VD), (m.map Prod.fst).Nodup →
      ((allMetrics.foldl (fun acc d => mergeRecords acc d.monthlyStats) m).map Prod.fst).Nodup by
    exact h [] (by simp)
  induction allMetrics with
  | nil => exact fun m hm => hm
  | cons d rest ih =>
    exact fun m hm => ih _ (nodup_keys_mergeRecords _ hm)

theorem filter_key_eq_nil {m : List (String × VD)} {mo : String}
    (h : mo ∉ m.map Prod.fst) : m.filter (fun p => p.1 = mo) = [] := by
  induction m with
  | nil => rfl
  | cons p rest ih =>
    simp only [List.map_cons, List.mem_cons] at h
    push_neg at h
    simp [List.filter_cons, Ne.symm h.1, ih h.2]

theorem entriesSum_of_nodup {m : List (String × VD)} (hnd : (m.map Prod.fst).Nodup)
    (mo : String) : entriesSum m mo = valueAt m mo := by
  induction m with
  | nil => rfl
  | cons p rest ih =>
    obtain ⟨k, v⟩ := p
    simp only [List.map_cons, List.nodup_cons] at hnd
    by_cases h : k = mo
    · subst h
      rw [entriesSum, List.filter_cons_of_pos (by simp),
        filter_key_eq_nil (by simpa using hnd.1)]
      simp [valueAt, jget]
    · rw [entriesSum, List.filter_cons_of_neg (by simp [h]), ← entriesSum, ih hnd.2]
      simp [valueAt, jget, h]

theorem find?_map_toMS_of_mem {s : List (String × VD)} (hnd : (s.map Prod.fst).Nodup)
    {mo : String} {v : VD} (hmem : (mo, v) ∈ s) :
    (s.map (fun p => MonthlyStats.mk p.1 p.2.visits p.2.downloads)).find?
      (fun st => st.month = mo) = some (MonthlyStats.mk mo v.visits v.downloads) := by
  induction s with
  | nil => simp at hmem
  | cons p rest ih =>
    obtain ⟨k, w⟩ := p
    simp only [List.map_cons, List.nodup_cons] at hnd
    by_cases h : k = mo
    · subst h
      rcases List.mem_cons.mp hmem with heq | hmem'
      · obtain ⟨-, h2⟩ := Prod.mk.injEq .. ▸ heq
        subst h2
        simp [List.find?]
      · exact absurd (List.mem_map.mpr ⟨(k, v), hmem', rfl⟩) hnd.1
    · rcases List.mem_cons.mp hmem with heq | hmem'
      · obtain ⟨h1, -⟩ := Prod.mk.injEq .. ▸ heq
        exact absurd h1.symm h
      · simp only [List.map_cons, List.find?]
        rw [show (decide (k = mo)) = false from by simp [h]]
        exact ih hnd.2 hmem'

theorem seriesAt_sortedMap (m : List (String × VD)) (hnd : (m.map Prod.fst).Nodup)
    (mo : String) :
    seriesAt ((m.insertionSort monthPairLe).map
      (fun p => MonthlyStats.mk p.1 p.2.visits p.2.downloads)) mo = valueAt m mo := by
  have hperm : List.Perm (m.insertionSort monthPairLe) m :=
    List.perm_insertionSort monthPairLe m
  have hnd' : ((m.insertionSort monthPairLe).map Prod.fst).Nodup :=
    ((hperm.map Prod.fst).nodup_iff).mpr hnd
  cases hv : jget m mo with
  | none =>
    have hnone : ∀ p ∈ m.insertionSort monthPairLe, p.1 ≠ mo := by
      intro p hp
      exact (jget_eq_none_iff m mo).mp hv p (hperm.mem_iff.mp hp)
    rw [seriesAt, List.find?_eq_none.mpr ?_]
    · simp [valueAt, hv]
    · intro st hst
      rcases List.mem_map.mp hst with ⟨p, hp, rfl⟩
      simpa using hnone p hp
  | some v =>
    have hmem : (mo, v) ∈ m.insertionSort monthPairLe := hperm.mem_iff.mpr (mem_of_jget hv)
    rw [seriesAt, find?_map_toMS_of_mem hnd' hmem]
    simp [valueAt, hv]

/-! ### Claim C9 -/

theorem jget_fetchMap_foldl (entries : List MetricApiDatasetEntry)
    (m : List (String × VD)) (mo : String) :
    jget (entries.foldl (fun acc e => jset acc e.metric_month (entryVD e)) m) mo =
      match (entries.filter (fun e => e.metric_month = mo)).getLast? with
      | some e => some (entryVD e)
      | none => jget m mo := by
  induction entries using List.reverseRecOn with
  | nil => simp
  | append_singleton es e ih =>
    rw [List.foldl_append, List.foldl_cons, List.foldl_nil, List.filter_append]
    by_cases he : e.metric_month = mo
    · rw [List.filter_cons_of_pos (by simpa using he), List.filter_nil, List.getLast?_concat]
      rw [← he, jget_jset_self]
    · rw [List.filter_cons_of_neg (by simpa using he), List.filter_nil, List.append_nil,
        jget_jset_ne _ _ _ _ (fun hh => he hh.symm), ih]

/-- C9: a fetched metric record whose monthly download count is `null` is
stored in the dataset's series with downloads 0, and a record with a
non-null count is stored as given. The record considered is its month's
last across all fetched pages, since `Map.set` overwrites the month key. -/
theorem c9_null_download_stored_as_zero (entries : List MetricApiDatasetEntry)
    (e : MetricApiDatasetEntry)
    (h : (entries.filter (fun x => x.metric_month = e.metric_month)).getLast? = some e) :
    (e.monthly_download_resource = none →
      jget (fetchDatasetMetricsMap entries) e.metric_month = some ⟨e.monthly_visit, 0⟩)
    ∧ ∀ n : Int, e.monthly_download_resource = some n →
      jget (fetchDatasetMetricsMap entries) e.metric_month = some ⟨e.monthly_visit, n⟩ := by
  have hj : jget (fetchDatasetMetricsMap entries) e.metric_month = some (entryVD e) := by
    rw [fetchDatasetMetricsMap, jget_fetchMap_foldl, h]
  constructor
  · intro hn
    rw [hj]
    simp [entryVD, hn, jsOrInt_some_zero, jsOrInt_none]
  · intro n hn
    rw [hj]
    simp [entryVD, hn, jsOrInt_some_zero]

theorem c9_witness :
    ((([⟨1, "d", "2024-01", 7, none⟩, ⟨2, "d", "2024-02", 3, some 5⟩] :
        List MetricApiDatasetEntry).filter
          (fun x => x.metric_month = "2024-01")).getLast? = some ⟨1, "d", "2024-01", 7, none⟩)
    ∧ jget (fetchDatasetMetricsMap
        [⟨1, "d", "2024-01", 7, none⟩, ⟨2, "d", "2024-02", 3, some 5⟩]) "2024-01" =
        some ⟨7, 0⟩
    ∧ jget (fetchDatasetMetricsMap
        [⟨1, "d", "2024-01", 7, none⟩, ⟨2, "d", "2024-02", 3, some 5⟩]) "2024-02" =
        some ⟨3, 5⟩ :=
  ⟨by decide,
    (c9_null_download_stored_as_zero _ ⟨1, "d", "2024-01", 7, none⟩ (by decide)).1 rfl,
    (c9_null_download_stored_as_zero _ ⟨2, "d", "2024-02", 3, some 5⟩ (by decide)).2 5 rfl⟩

/-! ### Claim C10 -/

/-- C10: for metadata whose organization is `null`, every record built from
it — ranking entry, directory entry, per-dataset stats record (in both
scripts) — carries organization name "Inconnu" and an empty
`organizationId`. -/
theorem c10_null_organization (m : DatasetMetrics) (md : DatagouvDataset)
    (hmd : md.organization = none) (v pv : Int) (r : Nat) (id : String)
    (metadataMap : List (String × DatagouvDataset))
    (hnd : (metadataMap.map Prod.fst).Nodup) (hget : jget metadataMap id = some md)
    (ex : Option DatasetStats) (nd : List DatasetMonthlyUpdate) :
    ((createRanking m md v pv r).organization = "Inconnu"
      ∧ (createRanking m md v pv r).organizationId = "")
    ∧ ((summaryOf id md).organization = "Inconnu" ∧ (summaryOf id md).organizationId = "")
    ∧ ((createDatasetStats m md).organization = "Inconnu"
      ∧ (createDatasetStats m md).organizationId = "")
    ∧ ((updateDatasetStats id ex nd md).organization = "Inconnu"
      ∧ (updateDatasetStats id ex nd md).organizationId = "")
    ∧ (∀ s ∈ (createDatasetsIndex metadataMap).datasets, s.id = id →
        s.organization = "Inconnu" ∧ s.organizationId = "") := by
  refine ⟨⟨?_, ?_⟩, ⟨?_, ?_⟩, ⟨?_, ?_⟩, ⟨?_, ?_⟩, ?_⟩
  any_goals simp [createRanking, summaryOf, createDatasetStats, updateDatasetStats, hmd, jsOrStr]
  intro s hs hsid
  have hs' : s ∈ metadataMap.map (fun q => summaryOf q.1 q.2) :=
    (List.perm_insertionSort summaryLe _).mem_iff.mp hs
  rcases List.mem_map.mp hs' with ⟨q, hq, rfl⟩
  have hqid : q.1 = id := hsid
  have : jget metadataMap id = some q.2 := by
    apply jget_of_mem hnd
    rw [← hqid]
    exact hq
  rw [hget] at this
  obtain rfl : md = q.2 := by injection this
  simp [summaryOf, hmd, jsOrStr]

theorem c10_witness :
    ((⟨"2", "T", "s", "d", "p", none, ⟨0, 0, 0, 0⟩, "", ""⟩ : DatagouvDataset).organization
      = none)
    ∧ ([("x", ⟨"2", "T", "s", "d", "p", none, ⟨0, 0, 0, 0⟩, "", ""⟩)] :
        List (String × DatagouvDataset)).map Prod.fst = ["x"]
    ∧ (createRanking ⟨"x", [], 0, 0⟩ ⟨"2", "T", "s", "d", "p", none, ⟨0, 0, 0, 0⟩, "", ""⟩
        9 4 1).organization = "Inconnu"
    ∧ (createRanking ⟨"x", [], 0, 0⟩ ⟨"2", "T", "s", "d", "p", none, ⟨0, 0, 0, 0⟩, "", ""⟩
        9 4 1).organizationId = "" := by
  refine ⟨rfl, rfl, ?_, ?_⟩
  · exact (c10_null_organization ⟨"x", [], 0, 0⟩ _ rfl 9 4 1 "x"
      [("x", ⟨"2", "T", "s", "d", "p", none, ⟨0, 0, 0, 0⟩, "", ""⟩)] (by decide)
      (by decide) none []).1.1
  · exact (c10_null_organization ⟨"x", [], 0, 0⟩ _ rfl 9 4 1 "x"
      [("x", ⟨"2", "T", "s", "d", "p", none, ⟨0, 0, 0, 0⟩, "", ""⟩)] (by decide)
      (by decide) none []).1.2

/-! ### Membership in ranking lists -/

theorem mem_rankLoop {mk : WithStats → Nat → DatasetRanking} :
    ∀ {n : Nat} {l : List WithStats} {e : DatasetRanking},
      e ∈ rankLoop mk n l → ∃ d ∈ l, ∃ k, e = mk d k := by
  intro n l
  induction l generalizing n with
  | nil => intro e h; simp [rankLoop] at h
  | cons d ds ih =>
    intro e h
    rcases List.mem_cons.mp h with h | h
    · exact ⟨d, List.mem_cons_self d ds, n, h⟩
    · rcases ih h with ⟨d', hd', k, hk⟩
      exact ⟨d', List.mem_cons_of_mem d hd', k, hk⟩

theorem rankingOf_calculateTopDatasets (allMetrics : List DatasetMetrics)
    (metadataMap : List (String × DatagouvDataset)) (anchor : Nat) (p : Period) (mc : Metric) :
    rankingOf (calculateTopDatasets allMetrics metadataMap anchor) p mc =
      topBy allMetrics metadataMap anchor p mc := by
  cases p <;> cases mc <;> rfl

theorem mem_topBy {allMetrics : List DatasetMetrics}
    {metadataMap : List (String × DatagouvDataset)} {anchor : Nat} {p : Period} {mc : Metric}
    {e : DatasetRanking} (h : e ∈ topBy allMetrics metadataMap anchor p mc) :
    ∃ w ∈ datasetsWithStats allMetrics metadataMap anchor p, ∃ k,
      e = createRanking w.metrics w.metadata (metricOf mc w.current)
        (metricOf mc w.previous) k := by
  rcases mem_rankLoop (show e ∈ rankLoop _ 1
      (((datasetsWithStats allMetrics metadataMap anchor p).insertionSort
        (byMetricGe mc)).take TOP_DATASETS_COUNT) from h) with ⟨w, hw, k, hk⟩
  exact ⟨w, (List.perm_insertionSort _ _).mem_iff.mp (List.mem_of_mem_take hw), k, hk⟩

theorem mem_datasetsWithStats {allMetrics : List DatasetMetrics}
    {metadataMap : List (String × DatagouvDataset)} {anchor : Nat} {p : Period}
    {w : WithStats} (h : w ∈ datasetsWithStats allMetrics metadataMap anchor p) :
    jget metadataMap w.metrics.datasetId = some w.metadata
    ∧ w.current = currentOf w.metrics anchor p
    ∧ w.previous = previousOf w.metrics anchor p := by
  rcases List.mem_filterMap.mp h with ⟨m, hm, hf⟩
  cases hj : jget metadataMap m.datasetId with
  | none =>
    rw [hj] at hf
    simp at hf
  | some md =>
    rw [hj] at hf
    have hw : (⟨m, md, currentOf m anchor p, previousOf m anchor p⟩ : WithStats) = w := by
      injection hf
    subst hw
    exact ⟨hj, rfl, rfl⟩

theorem previousOf_allTime (m : DatasetMetrics) (anchor : Nat) :
    previousOf m anchor Period.allTime = 0 := by
  simp [previousOf]

/-! ### Claim C5 -/

/-- C5: a ranking entry's trend is `((value − previousValue) / previousValue) × 100`
when the previous value is positive and exactly 0 otherwise — in particular
previous 0 yields 0 and previous 200 with value 300 yields 50 — and every
entry of the `allTime` ranking lists carries trend 0. -/
theorem c5_trend_formula :
    (∀ (m : DatasetMetrics) (md : DatagouvDataset) (v pv : Int) (r : Nat), 0 < pv →
      (createRanking m md v pv r).trend = (((v : ℚ) - (pv : ℚ)) / (pv : ℚ)) * 100)
    ∧ (∀ (m : DatasetMetrics) (md : DatagouvDataset) (v : Int) (r : Nat),
      (createRanking m md v 0 r).trend = 0)
    ∧ (∀ (m : DatasetMetrics) (md : DatagouvDataset) (r : Nat),
      (createRanking m md 300 200 r).trend = 50)
    ∧ ∀ (allMetrics : List DatasetMetrics) (metadataMap : List (String × DatagouvDataset))
        (anchor : Nat) (mc : Metric) (e : DatasetRanking),
        e ∈ rankingOf (calculateTopDatasets allMetrics metadataMap anchor) Period.allTime mc →
        e.trend = 0 := by
  refine ⟨?_, ?_, ?_, ?_⟩
  · intro m md v pv r h
    show (if pv > 0 then (((v : ℚ) - (pv : ℚ)) / (pv : ℚ)) * 100 else 0) = _
    rw [if_pos h]
  · intro m md v r
    show (if (0 : Int) > 0 then (((v : ℚ) - ((0 : Int) : ℚ)) / ((0 : Int) : ℚ)) * 100 else 0) = 0
    rw [if_neg (by norm_num)]
  · intro m md r
    show (if (200 : Int) > 0 then
        ((((300 : Int) : ℚ) - ((200 : Int) : ℚ)) / ((200 : Int) : ℚ)) * 100 else 0) = 50
    rw [if_pos (by norm_num)]
    norm_num
  · intro allMetrics metadataMap anchor mc e he
    rw [rankingOf_calculateTopDatasets] at he
    rcases mem_topBy he with ⟨w, hw, k, rfl⟩
    have hprev := (mem_datasetsWithStats hw).2.2
    rw [previousOf_allTime] at hprev
    have hz : metricOf mc w.previous = 0 := by
      rw [hprev]
      cases mc <;> rfl
    show (if metricOf mc w.previous > 0 then _ else 0) = 0
    rw [hz, if_neg (by norm_num)]

theorem c5_witness :
    (0 < (200 : Int))
    ∧ (createRanking ⟨"d", [], 0, 0⟩
        ⟨"d", "T", "s", "de", "p", none, ⟨0, 0, 0, 0⟩, "", ""⟩ 300 200 1).trend
      = (((300 : Int) : ℚ) - ((200 : Int) : ℚ)) / ((200 : Int) : ℚ) * 100
    ∧ (createRanking ⟨"d", [], 0, 0⟩
        ⟨"d", "T", "s", "de", "p", none, ⟨0, 0, 0, 0⟩, "", ""⟩ 7 0 1).trend = 0
    ∧ (createRanking ⟨"d", [], 0, 0⟩
        ⟨"d", "T", "s", "de", "p", none, ⟨0, 0, 0, 0⟩, "", ""⟩ 300 200 1).trend = 50
    ∧ (⟨"d", "T", "s", "Inconnu", "", 5, 0, 0, 1⟩ : DatasetRanking) ∈
        rankingOf (calculateTopDatasets [⟨"d", [("2024-01", ⟨5, 6⟩)], 5, 6⟩]
          [("d", ⟨"d", "T", "s", "de", "p", none, ⟨0, 0, 0, 0⟩, "", ""⟩)] 24292)
          Period.allTime Metric.visits
    ∧ (⟨"d", "T", "s", "Inconnu", "", 5, 0, 0, 1⟩ : DatasetRanking).trend = 0 :=
  ⟨by norm_num,
    c5_trend_formula.1 ⟨"d", [], 0, 0⟩ _ 300 200 1 (by norm_num),
    c5_trend_formula.2.1 ⟨"d", [], 0, 0⟩ _ 7 1,
    c5_trend_formula.2.2.1 ⟨"d", [], 0, 0⟩ _ 1,
    by decide,
    c5_trend_formula.2.2.2 [⟨"d", [("2024-01", ⟨5, 6⟩)], 5, 6⟩]
      [("d", ⟨"d", "T", "s", "de", "p", none, ⟨0, 0, 0, 0⟩, "", ""⟩)] 24292 Metric.visits
      ⟨"d", "T", "s", "Inconnu", "", 5, 0, 0, 1⟩ (by decide)⟩

/-! ### Claim C2 -/

/-- C2: every month present in the computed global series carries exactly
the sum over all per-dataset series of that month's visits, and likewise
for downloads (each dataset's series being month-keyed, i.e. without
duplicate month keys, as a `Map` guarantees). -/
theorem c2_global_series_is_sum (allMetrics : List DatasetMetrics)
    (hnd : ∀ d ∈ allMetrics, (d.monthlyStats.map Prod.fst).Nodup)
    (ms : MonthlyStats) (hms : ms ∈ (calculateGlobalStats allMetrics).monthlyStats) :
    ms.visits = (allMetrics.map (fun d => visitsAt d ms.month)).sum
    ∧ ms.downloads = (allMetrics.map (fun d => downloadsAt d ms.month)).sum := by
  have hms' : ms ∈ ((monthlyAggregatesOf allMetrics).insertionSort monthPairLe).map
      (fun p => MonthlyStats.mk p.1 p.2.visits p.2.downloads) := hms
  rcases List.mem_map.mp hms' with ⟨p, hp, rfl⟩
  obtain ⟨mo, v⟩ := p
  have hpmem : (mo, v) ∈ monthlyAggregatesOf allMetrics :=
    (List.perm_insertionSort _ _).mem_iff.mp hp
  have hj : jget (monthlyAggregatesOf allMetrics) mo = some v :=
    jget_of_mem (nodup_keys_monthlyAggregatesOf allMetrics) hpmem
  have hv : valueAt (monthlyAggregatesOf allMetrics) mo = v := by simp [valueAt, hj]
  have hsum := valueAt_monthlyAggregatesOf allMetrics mo
  rw [hv, List.map_congr_left (fun d hd => entriesSum_of_nodup (hnd d hd) mo)] at hsum
  constructor
  · show v.visits = _
    rw [hsum]
    simp [visitsAt, List.map_map, Function.comp_def]
  · show v.downloads = _
    rw [hsum]
    simp [downloadsAt, List.map_map, Function.comp_def]

theorem c2_witness :
    (∀ d ∈ ([⟨"a", [("2024-01", ⟨3, 4⟩), ("2024-02", ⟨5, 6⟩)], 8, 10⟩,
        ⟨"b", [("2024-01", ⟨10, 20⟩)], 10, 20⟩] : List DatasetMetrics),
      (d.monthlyStats.map Prod.fst).Nodup)
    ∧ (⟨"2024-01", 13, 24⟩ : MonthlyStats) ∈ (calculateGlobalStats
        [⟨"a", [("2024-01", ⟨3, 4⟩), ("2024-02", ⟨5, 6⟩)], 8, 10⟩,
         ⟨"b", [("2024-01", ⟨10, 20⟩)], 10, 20⟩]).monthlyStats
    ∧ (13 : Int) = (([⟨"a", [("2024-01", ⟨3, 4⟩), ("2024-02", ⟨5, 6⟩)], 8, 10⟩,
        ⟨"b", [("2024-01", ⟨10, 20⟩)], 10, 20⟩] : List DatasetMetrics).map
          (fun d => visitsAt d (⟨"2024-01", 13, 24⟩ : MonthlyStats).month)).sum :=
  ⟨by decide, by decide,
    (c2_global_series_is_sum
      [⟨"a", [("2024-01", ⟨3, 4⟩), ("2024-02", ⟨5, 6⟩)], 8, 10⟩,
       ⟨"b", [("2024-01", ⟨10, 20⟩)], 10, 20⟩]
      (by decide) ⟨"2024-01", 13, 24⟩ (by decide)).1⟩

/-! ### Claim C7 -/

/-- C7: a dataset whose metadata is unresolvable (absent from the metadata
map) still contributes its series to the global totals and to every month
of the global aggregation, yet appears in no ranking list of any period or
metric and in no directory entry. -/
theorem c7_missing_metadata_excluded (metadataMap : List (String × DatagouvDataset))
    (id : String) (l₁ l₂ : List DatasetMetrics) (d : DatasetMetrics)
    (_hd : d.datasetId = id) (hnone : jget metadataMap id = none)
    (anchor : Nat) (p : Period) (mc : Metric) (mo : String) :
    ((calculateGlobalStats (l₁ ++ d :: l₂)).totalVisits
        = d.totalVisits + (calculateGlobalStats (l₁ ++ l₂)).totalVisits
      ∧ (calculateGlobalStats (l₁ ++ d :: l₂)).totalDownloads
        = d.totalDownloads + (calculateGlobalStats (l₁ ++ l₂)).totalDownloads)
    ∧ valueAt (monthlyAggregatesOf (l₁ ++ d :: l₂)) mo
        = entriesSum d.monthlyStats mo + valueAt (monthlyAggregatesOf (l₁ ++ l₂)) mo
    ∧ (∀ e ∈ rankingOf (calculateTopDatasets (l₁ ++ d :: l₂) metadataMap anchor) p mc,
        e.id ≠ id)
    ∧ (∀ s ∈ (createDatasetsIndex metadataMap).datasets, s.id ≠ id) := by
  refine ⟨⟨?_, ?_⟩, ?_, ?_, ?_⟩
  · show ((l₁ ++ d :: l₂).map (fun d => d.totalVisits)).sum = _
    show _ = d.totalVisits + ((l₁ ++ l₂).map (fun d => d.totalVisits)).sum
    simp [List.sum_append]
    ring
  · show ((l₁ ++ d :: l₂).map (fun d => d.totalDownloads)).sum = _
    show _ = d.totalDownloads + ((l₁ ++ l₂).map (fun d => d.totalDownloads)).sum
    simp [List.sum_append]
    ring
  · rw [valueAt_monthlyAggregatesOf, valueAt_monthlyAggregatesOf]
    simp [List.sum_append]
    abel
  · intro e he heq
    rw [rankingOf_calculateTopDatasets] at he
    rcases mem_topBy he with ⟨w, hw, k, rfl⟩
    have hj := (mem_datasetsWithStats hw).1
    have heq' : w.metrics.datasetId = id := heq
    rw [heq', hnone] at hj
    exact absurd hj (by simp)
  · intro s hs heq
    have hs' : s ∈ metadataMap.map (fun q => summaryOf q.1 q.2) :=
      (List.perm_insertionSort summaryLe _).mem_iff.mp hs
    rcases List.mem_map.mp hs' with ⟨q, hq, rfl⟩
    exact (jget_eq_none_iff metadataMap id).mp hnone q hq heq

theorem c7_witness :
    ((⟨"z", [("2024-01", ⟨3, 4⟩)], 3, 4⟩ : DatasetMetrics).datasetId = "z")
    ∧ jget ([("a", ⟨"a", "T", "s", "de", "p", none, ⟨0, 0, 0, 0⟩, "", ""⟩)] :
        List (String × DatagouvDataset)) "z" = none
    ∧ (∀ e ∈ rankingOf (calculateTopDatasets
        ([] ++ (⟨"z", [("2024-01", ⟨3, 4⟩)], 3, 4⟩ : DatasetMetrics) ::
          [⟨"a", [("2024-01", ⟨1, 1⟩)], 1, 1⟩])
        [("a", ⟨"a", "T", "s", "de", "p", none, ⟨0, 0, 0, 0⟩, "", ""⟩)] 24292)
        Period.week Metric.visits, e.id ≠ "z") :=
  ⟨rfl, by decide,
    (c7_missing_metadata_excluded
      [("a", ⟨"a", "T", "s", "de", "p", none, ⟨0, 0, 0, 0⟩, "", ""⟩)] "z"
      [] [⟨"a", [("2024-01", ⟨1, 1⟩)], 1, 1⟩] ⟨"z", [("2024-01", ⟨3, 4⟩)], 3, 4⟩
      rfl (by decide) 24292 Period.week Metric.visits "2024-01").2.2.1⟩

/-! ### Claim C3 -/

theorem foldl_ite_add {β : Type} (f : β → Bool) (g : β → VD) (l : List β) (init : VD) :
    l.foldl (fun acc x => if f x then acc + g x else acc) init =
      init + ((l.filter f).map g).sum := by
  induction l generalizing init with
  | nil => simp
  | cons x xs ih =>
    by_cases h : f x
    · simp [List.foldl_cons, h, ih, List.filter_cons, add_assoc]
    · simp [List.foldl_cons, h, ih, List.filter_cons]

theorem getStatsForPeriod_eq_filter_sum (m : DatasetMetrics) (startMonth endMonth : String) :
    getStatsForPeriod m startMonth endMonth =
      ((m.monthlyStats.filter
        (fun p => strLe startMonth p.1 && strLe p.1 endMonth)).map Prod.snd).sum := by
  rw [getStatsForPeriod, foldl_ite_add, zero_add]

theorem strLe_fmtMonth_decide {i j : Nat} (hi : i < 120000) (hj : j < 120000) :
    strLe (fmtMonth i) (fmtMonth j) = decide (i ≤ j) := by
  by_cases h : i ≤ j
  · simp [h, (strLe_fmtMonth hi hj).mpr h]
  · have hne : ¬ strLe (fmtMonth i) (fmtMonth j) = true :=
      fun hc => h ((strLe_fmtMonth hi hj).mp hc)
    simp only [Bool.not_eq_true] at hne
    simp [h, hne]

/-- `getStatsForPeriod` on a series whose months are canonical "YYYY-MM"
strings: the inclusive string-compared window is exactly the inclusive
month-index interval. -/
theorem getStatsForPeriod_indexed (sl : List (Nat × VD)) (hsl : ∀ q ∈ sl, q.1 < 120000)
    (dsid : String) (tv td : Int) (lo hi : Nat) (hlo : lo < 120000) (hhi : hi < 120000) :
    getStatsForPeriod ⟨dsid, sl.map (fun q => (fmtMonth q.1, q.2)), tv, td⟩
      (fmtMonth lo) (fmtMonth hi) =
      ((sl.filter (fun q => decide (lo ≤ q.1 ∧ q.1 ≤ hi))).map Prod.snd).sum := by
  rw [getStatsForPeriod_eq_filter_sum]
  show (((sl.map (fun q => (fmtMonth q.1, q.2))).filter
      (fun p => strLe (fmtMonth lo) p.1 && strLe p.1 (fmtMonth hi))).map Prod.snd).sum = _
  rw [List.filter_map, List.map_map]
  rw [show (Prod.snd ∘ fun q : Nat × VD => (fmtMonth q.1, q.2)) = Prod.snd from rfl]
  congr 2
  apply List.filter_congr
  intro q hq
  have hqb : q.1 < 120000 := hsl q hq
  show (strLe (fmtMonth lo) (fmtMonth q.1) && strLe (fmtMonth q.1) (fmtMonth hi))
      = decide (lo ≤ q.1 ∧ q.1 ≤ hi)
  rw [strLe_fmtMonth_decide hlo hqb, strLe_fmtMonth_decide hqb hhi]
  by_cases h1 : lo ≤ q.1 <;> by_cases h2 : q.1 ≤ hi <;> simp [h1, h2]

/-- The fixed start of the metric history: the `'2022-07'` constant of both
scripts (July 2022, month index 24270; `GlobalStats.startDate` also
defaults to it). -/
def globalStartMonth : String := "2022-07"

/-- C3: the per-period window table. For an anchor month `A` (as an index),
over any series with canonical month keys: the current windows are
week `[A, A]`, month `[A-1, A]`, year `[A-12, A]`, allTime
`[globalStartMonth, A]`; the previous windows are week `[A-1, A-1]`,
month `[A-2, A-2]`, year `[A-24, A-13]`, and allTime has none (zero).
Window membership is the inclusive fixed-width string comparison, shown
equal to the index interval. -/
theorem c3_window_table (anchor : Nat) (h24 : 24 ≤ anchor) (hb : anchor < 120000)
    (sl : List (Nat × VD)) (hsl : ∀ q ∈ sl, q.1 < 120000) (dsid : String) (tv td : Int) :
    (currentOf ⟨dsid, sl.map (fun q => (fmtMonth q.1, q.2)), tv, td⟩ anchor Period.week
      = ((sl.filter (fun q => decide (anchor ≤ q.1 ∧ q.1 ≤ anchor))).map Prod.snd).sum)
    ∧ (previousOf ⟨dsid, sl.map (fun q => (fmtMonth q.1, q.2)), tv, td⟩ anchor Period.week
      = ((sl.filter
          (fun q => decide (anchor - 1 ≤ q.1 ∧ q.1 ≤ anchor - 1))).map Prod.snd).sum)
    ∧ (currentOf ⟨dsid, sl.map (fun q => (fmtMonth q.1, q.2)), tv, td⟩ anchor Period.month
      = ((sl.filter (fun q => decide (anchor - 1 ≤ q.1 ∧ q.1 ≤ anchor))).map Prod.snd).sum)
    ∧ (previousOf ⟨dsid, sl.map (fun q => (fmtMonth q.1, q.2)), tv, td⟩ anchor Period.month
      = ((sl.filter
          (fun q => decide (anchor - 2 ≤ q.1 ∧ q.1 ≤ anchor - 2))).map Prod.snd).sum)
    ∧ (currentOf ⟨dsid, sl.map (fun q => (fmtMonth q.1, q.2)), tv, td⟩ anchor Period.year
      = ((sl.filter (fun q => decide (anchor - 12 ≤ q.1 ∧ q.1 ≤ anchor))).map Prod.snd).sum)
    ∧ (previousOf ⟨dsid, sl.map (fun q => (fmtMonth q.1, q.2)), tv, td⟩ anchor Period.year
      = ((sl.filter
          (fun q => decide (anchor - 24 ≤ q.1 ∧ q.1 ≤ anchor - 13))).map Prod.snd).sum)
    ∧ (globalStartMonth = fmtMonth 24270
      ∧ currentOf ⟨dsid, sl.map (fun q => (fmtMonth q.1, q.2)), tv, td⟩ anchor Period.allTime
        = ((sl.filter (fun q => decide (24270 ≤ q.1 ∧ q.1 ≤ anchor))).map Prod.snd).sum)
    ∧ previousOf ⟨dsid, sl.map (fun q => (fmtMonth q.1, q.2)), tv, td⟩ anchor Period.allTime
      = 0 := by
  refine ⟨?_, ?_, ?_, ?_, ?_, ?_, ⟨by decide, ?_⟩, previousOf_allTime _ _⟩
  · show getStatsForPeriod _ (fmtMonth (anchor - 0)) (fmtMonth anchor) = _
    rw [Nat.sub_zero]
    exact getStatsForPeriod_indexed sl hsl dsid tv td anchor anchor hb hb
  · show (if (Period.week ≠ Period.allTime) then
        getStatsForPeriod _ (fmtMonth (anchor - 1)) (fmtMonth (anchor - 1)) else 0) = _
    rw [if_pos (by decide)]
    exact getStatsForPeriod_indexed sl hsl dsid tv td (anchor - 1) (anchor - 1)
      (by omega) (by omega)
  · show getStatsForPeriod _ (fmtMonth (anchor - 1)) (fmtMonth anchor) = _
    exact getStatsForPeriod_indexed sl hsl dsid tv td (anchor - 1) anchor (by omega) hb
  · show (if (Period.month ≠ Period.allTime) then
        getStatsForPeriod _ (fmtMonth (anchor - 2)) (fmtMonth (anchor - 2)) else 0) = _
    rw [if_pos (by decide)]
    exact getStatsForPeriod_indexed sl hsl dsid tv td (anchor - 2) (anchor - 2)
      (by omega) (by omega)
  · show getStatsForPeriod _ (fmtMonth (anchor - 12)) (fmtMonth anchor) = _
    exact getStatsForPeriod_indexed sl hsl dsid tv td (anchor - 12) anchor (by omega) hb
  · show (if (Period.year ≠ Period.allTime) then
        getStatsForPeriod _ (fmtMonth (anchor - 24)) (fmtMonth (anchor - 13)) else 0) = _
    rw [if_pos (by decide)]
    exact getStatsForPeriod_indexed sl hsl dsid tv td (anchor - 24) (anchor - 13)
      (by omega) (by omega)
  · show getStatsForPeriod _ globalStartMonth (fmtMonth anchor) = _
    rw [show globalStartMonth = fmtMonth 24270 from by decide]
    exact getStatsForPeriod_indexed sl hsl dsid tv td 24270 anchor (by omega) hb

theorem c3_witness :
    (24 ≤ 24292 ∧ 24292 < 120000)
    ∧ (∀ q ∈ ([(24292, ⟨2, 3⟩), (24280, ⟨5, 7⟩)] : List (Nat × VD)), q.1 < 120000)
    ∧ currentOf ⟨"d", ([(24292, ⟨2, 3⟩), (24280, ⟨5, 7⟩)] : List (Nat × VD)).map
        (fun q => (fmtMonth q.1, q.2)), 0, 0⟩ 24292 Period.year
      = ((([(24292, ⟨2, 3⟩), (24280, ⟨5, 7⟩)] : List (Nat × VD)).filter
          (fun q => decide (24292 - 12 ≤ q.1 ∧ q.1 ≤ 24292))).map Prod.snd).sum :=
  ⟨⟨by norm_num, by norm_num⟩, by decide,
    (c3_window_table 24292 (by norm_num) (by norm_num)
      [(24292, ⟨2, 3⟩), (24280, ⟨5, 7⟩)] (by decide) "d" 0 0).2.2.2.2.1⟩

/-! ### Claim C4 -/

theorem rankLoop_length (mk : WithStats → Nat → DatasetRanking) :
    ∀ (n : Nat) (l : List WithStats), (rankLoop mk n l).length = l.length
  | _, [] => rfl
  | n, d :: ds => by simp [rankLoop, rankLoop_length mk (n + 1) ds]

theorem rankLoop_get (mk : WithStats → Nat → DatasetRanking) :
    ∀ (n : Nat) (l : List WithStats) (i : Nat) (h : i < (rankLoop mk n l).length)
      (h' : i < l.length), (rankLoop mk n l).get ⟨i, h⟩ = mk (l.get ⟨i, h'⟩) (n + i) := by
  intro n l
  induction l generalizing n with
  | nil => intro i h h'; simp at h'
  | cons d ds ih =>
    intro i h h'
    cases i with
    | zero => simp [rankLoop]
    | succ i =>
      show (rankLoop mk (n + 1) ds).get ⟨i, _⟩ = _
      rw [ih (n + 1) i _ (by simpa using h')]
      congr 1
      omega

theorem byMetricGe_total (mc : Metric) (a b : WithStats) :
    byMetricGe mc a b ∨ byMetricGe mc b a := by
  rcases Int.le_total (metricOf mc b.current) (metricOf mc a.current) with h | h
  · exact Or.inl h
  · exact Or.inr h

theorem byMetricGe_trans (mc : Metric) (a b c : WithStats)
    (hab : byMetricGe mc a b) (hbc : byMetricGe mc b c) : byMetricGe mc a c :=
  le_trans hbc hab

theorem c4_topBy_aux (allMetrics : List DatasetMetrics)
    (metadataMap : List (String × DatagouvDataset)) (anchor : Nat) (p : Period)
    (mc : Metric) :
    (topBy allMetrics metadataMap anchor p mc).length
      = min TOP_DATASETS_COUNT (datasetsWithStats allMetrics metadataMap anchor p).length
    ∧ (∀ (i j : Nat)
        (hi : i < (topBy allMetrics metadataMap anchor p mc).length)
        (hj : j < (topBy allMetrics metadataMap anchor p mc).length),
        i ≤ j →
        ((topBy allMetrics metadataMap anchor p mc).get ⟨j, hj⟩).value ≤
          ((topBy allMetrics metadataMap anchor p mc).get ⟨i, hi⟩).value)
    ∧ (∀ (i : Nat)
        (hi : i < (topBy allMetrics metadataMap anchor p mc).length),
        ((topBy allMetrics metadataMap anchor p mc).get ⟨i, hi⟩).rank = i + 1)
    ∧ (∀ v : Int,
        ((datasetsWithStats allMetrics metadataMap anchor p).insertionSort
            (byMetricGe mc)).filter (fun w => metricOf mc w.current = v)
          = (datasetsWithStats allMetrics metadataMap anchor p).filter
              (fun w => metricOf mc w.current = v)) := by
  have hsorted : ((datasetsWithStats allMetrics metadataMap anchor p).insertionSort
      (byMetricGe mc)).Sorted (byMetricGe mc) :=
    sorted_insertionSort_of _ (byMetricGe_total mc) (byMetricGe_trans mc) _
  have htake : (((datasetsWithStats allMetrics metadataMap anchor p).insertionSort
      (byMetricGe mc)).take TOP_DATASETS_COUNT).Pairwise (byMetricGe mc) :=
    hsorted.sublist (List.take_sublist _ _)
  refine ⟨?_, ?_, ?_, ?_⟩
  · show (rankLoop _ 1 _).length = _
    rw [rankLoop_length, List.length_take, List.length_insertionSort]
  · intro i j hi hj hij
    have hi' : i < (((datasetsWithStats allMetrics metadataMap anchor p).insertionSort
        (byMetricGe mc)).take TOP_DATASETS_COUNT).length := by
      rw [show (topBy allMetrics metadataMap anchor p mc).length = _ from
        rankLoop_length _ 1 _] at hi
      exact hi
    have hj' : j < (((datasetsWithStats allMetrics metadataMap anchor p).insertionSort
        (byMetricGe mc)).take TOP_DATASETS_COUNT).length := by
      rw [show (topBy allMetrics metadataMap anchor p mc).length = _ from
        rankLoop_length _ 1 _] at hj
      exact hj
    rw [show (topBy allMetrics metadataMap anchor p mc).get ⟨i, hi⟩ = _ from
        rankLoop_get _ 1 _ i hi hi',
      show (topBy allMetrics metadataMap anchor p mc).get ⟨j, hj⟩ = _ from
        rankLoop_get _ 1 _ j hj hj']
    show metricOf mc _ ≤ metricOf mc _
    rcases Nat.lt_or_ge i j with hlt | hge
    · exact (List.pairwise_iff_get.mp htake ⟨i, hi'⟩ ⟨j, hj'⟩ hlt : byMetricGe mc _ _)
    · have : i = j := by omega
      subst this
      exact le_refl _
  · intro i hi
    have hi' : i < (((datasetsWithStats allMetrics metadataMap anchor p).insertionSort
        (byMetricGe mc)).take TOP_DATASETS_COUNT).length := by
      rw [show (topBy allMetrics metadataMap anchor p mc).length = _ from
        rankLoop_length _ 1 _] at hi
      exact hi
    rw [show (topBy allMetrics metadataMap anchor p mc).get ⟨i, hi⟩ = _ from
      rankLoop_get _ 1 _ i hi hi']
    show 1 + i = i + 1
    omega
  · intro v
    apply filter_insertionSort
    intro a b ha hb
    have ha' : metricOf mc a.current = v := of_decide_eq_true ha
    have hb' : metricOf mc b.current = v := of_decide_eq_true hb
    show metricOf mc b.current ≤ metricOf mc a.current
    rw [ha', hb']

/-- C4: each period's per-metric ranking list has length
`min 100 (number of ranked datasets)`, is non-increasing in the
current-window value, carries rank `i + 1` at position `i`, and the
underlying sort is stable — entries with equal current-window value keep
their original input order (`filter` by any value is unchanged by the
sort). -/
theorem c4_ranking_sorted_stable_truncated (allMetrics : List DatasetMetrics)
    (metadataMap : List (String × DatagouvDataset)) (anchor : Nat) (p : Period)
    (mc : Metric) :
    (rankingOf (calculateTopDatasets allMetrics metadataMap anchor) p mc).length
      = min TOP_DATASETS_COUNT (datasetsWithStats allMetrics metadataMap anchor p).length
    ∧ (∀ (i j : Nat)
        (hi : i < (rankingOf (calculateTopDatasets allMetrics metadataMap anchor) p mc).length)
        (hj : j < (rankingOf (calculateTopDatasets allMetrics metadataMap anchor) p mc).length),
        i ≤ j →
        ((rankingOf (calculateTopDatasets allMetrics metadataMap anchor) p mc).get
            ⟨j, hj⟩).value ≤
          ((rankingOf (calculateTopDatasets allMetrics metadataMap anchor) p mc).get
            ⟨i, hi⟩).value)
    ∧ (∀ (i : Nat)
        (hi : i < (rankingOf (calculateTopDatasets allMetrics metadataMap anchor) p mc).length),
        ((rankingOf (calculateTopDatasets allMetrics metadataMap anchor) p mc).get
          ⟨i, hi⟩).rank = i + 1)
    ∧ (∀ v : Int,
        ((datasetsWithStats allMetrics metadataMap anchor p).insertionSort
            (byMetricGe mc)).filter (fun w => metricOf mc w.current = v)
          = (datasetsWithStats allMetrics metadataMap anchor p).filter
              (fun w => metricOf mc w.current = v)) := by
  cases p <;> cases mc <;> exact c4_topBy_aux allMetrics metadataMap anchor _ _

theorem c4_witness :
    ((0 : Nat) < (rankingOf (calculateTopDatasets
        [⟨"a", [("2024-01", ⟨1, 1⟩)], 1, 1⟩, ⟨"b", [("2024-01", ⟨9, 2⟩)], 9, 2⟩]
        [("a", ⟨"a", "TA", "s", "de", "p", none, ⟨0, 0, 0, 0⟩, "", ""⟩),
         ("b", ⟨"b", "TB", "s", "de", "p", none, ⟨0, 0, 0, 0⟩, "", ""⟩)] 24292)
        Period.allTime Metric.visits).length)
    ∧ ((1 : Nat) < (rankingOf (calculateTopDatasets
        [⟨"a", [("2024-01", ⟨1, 1⟩)], 1, 1⟩, ⟨"b", [("2024-01", ⟨9, 2⟩)], 9, 2⟩]
        [("a", ⟨"a", "TA", "s", "de", "p", none, ⟨0, 0, 0, 0⟩, "", ""⟩),
         ("b", ⟨"b", "TB", "s", "de", "p", none, ⟨0, 0, 0, 0⟩, "", ""⟩)] 24292)
        Period.allTime Metric.visits).length)
    ∧ (∀ (hi : (0 : Nat) < (rankingOf (calculateTopDatasets
        [⟨"a", [("2024-01", ⟨1, 1⟩)], 1, 1⟩, ⟨"b", [("2024-01", ⟨9, 2⟩)], 9, 2⟩]
        [("a", ⟨"a", "TA", "s", "de", "p", none, ⟨0, 0, 0, 0⟩, "", ""⟩),
         ("b", ⟨"b", "TB", "s", "de", "p", none, ⟨0, 0, 0, 0⟩, "", ""⟩)] 24292)
        Period.allTime Metric.visits).length)
        (hj : (1 : Nat) < (rankingOf (calculateTopDatasets
        [⟨"a", [("2024-01", ⟨1, 1⟩)], 1, 1⟩, ⟨"b", [("2024-01", ⟨9, 2⟩)], 9, 2⟩]
        [("a", ⟨"a", "TA", "s", "de", "p", none, ⟨0, 0, 0, 0⟩, "", ""⟩),
         ("b", ⟨"b", "TB", "s", "de", "p", none, ⟨0, 0, 0, 0⟩, "", ""⟩)] 24292)
        Period.allTime Metric.visits).length),
      ((rankingOf (calculateTopDatasets
        [⟨"a", [("2024-01", ⟨1, 1⟩)], 1, 1⟩, ⟨"b", [("2024-01", ⟨9, 2⟩)], 9, 2⟩]
        [("a", ⟨"a", "TA", "s", "de", "p", none, ⟨0, 0, 0, 0⟩, "", ""⟩),
         ("b", ⟨"b", "TB", "s", "de", "p", none, ⟨0, 0, 0, 0⟩, "", ""⟩)] 24292)
        Period.allTime Metric.visits).get ⟨1, hj⟩).value ≤
      ((rankingOf (calculateTopDatasets
        [⟨"a", [("2024-01", ⟨1, 1⟩)], 1, 1⟩, ⟨"b", [("2024-01", ⟨9, 2⟩)], 9, 2⟩]
        [("a", ⟨"a", "TA", "s", "de", "p", none, ⟨0, 0, 0, 0⟩, "", ""⟩),
         ("b", ⟨"b", "TB", "s", "de", "p", none, ⟨0, 0, 0, 0⟩, "", ""⟩)] 24292)
        Period.allTime Metric.visits).get ⟨0, hi⟩).value) := by
  refine ⟨by decide, by decide, ?_⟩
  intro hi hj
  exact (c4_ranking_sorted_stable_truncated
    [⟨"a", [("2024-01", ⟨1, 1⟩)], 1, 1⟩, ⟨"b", [("2024-01", ⟨9, 2⟩)], 9, 2⟩]
    [("a", ⟨"a", "TA", "s", "de", "p", none, ⟨0, 0, 0, 0⟩, "", ""⟩),
     ("b", ⟨"b", "TB", "s", "de", "p", none, ⟨0, 0, 0, 0⟩, "", ""⟩)] 24292
    Period.allTime Metric.visits).2.1 0 1 hi hj (by omega)

/-! ### Claim C8 -/

/-- C8 counterexample: the claim adds that the titles
["Élection", "Agriculture", "Énergie"] sort to
["Agriculture", "Élection", "Énergie"] "not to their raw byte order" — but
the raw code-unit sort of exactly these titles produces that same order
('A' = U+0041 precedes 'É' = U+00C9, and the two É-titles then compare at
'l' vs 'n'), and the directory built from them coincides with it. -/
theorem c8_counterexample :
    (["Élection", "Agriculture", "Énergie"].insertionSort
        (fun a b => strLe a b = true))
      = ["Agriculture", "Élection", "Énergie"]
    ∧ ((createDatasetsIndex
        [("1", ⟨"1", "Élection", "s", "de", "p", none, ⟨0, 0, 0, 0⟩, "", ""⟩),
         ("2", ⟨"2", "Agriculture", "s", "de", "p", none, ⟨0, 0, 0, 0⟩, "", ""⟩),
         ("3", ⟨"3", "Énergie", "s", "de", "p", none, ⟨0, 0, 0, 0⟩, "", ""⟩)]).datasets.map
        DatasetSummary.title)
      = ["Agriculture", "Élection", "Énergie"] := by
  constructor <;> decide

theorem summaryLe_total (a b : DatasetSummary) : summaryLe a b ∨ summaryLe b a := by
  by_cases h : lexLt (frKey b.title) (frKey a.title) = true
  · exact Or.inr (lexLt_asymm h)
  · exact Or.inl (by simpa [summaryLe] using h)

theorem summaryLe_trans (a b c : DatasetSummary)
    (hab : summaryLe a b) (hbc : summaryLe b c) : summaryLe a c :=
  lexGe_trans hab hbc

/-- C8 (amended): the directory is deduplicated by entity id and its entries
are sorted by display title under the locale-aware collation; the titles
["Élection", "Agriculture", "Énergie"] sort to
["Agriculture", "Élection", "Énergie"] — for these three titles the order
happens to coincide with raw code-unit order, while the collation does
differ from raw order in general, e.g. ["Zèbre", "Élection"] sorts to
["Élection", "Zèbre"] under the collation but to ["Zèbre", "Élection"] by
raw code units. -/
theorem c8_directory_dedup_sorted_locale (metadataMap : List (String × DatagouvDataset))
    (hnd : (metadataMap.map Prod.fst).Nodup) :
    ((createDatasetsIndex metadataMap).datasets.map DatasetSummary.id).Nodup
    ∧ (createDatasetsIndex metadataMap).datasets.Sorted summaryLe
    ∧ ((createDatasetsIndex
        [("1", ⟨"1", "Élection", "s", "de", "p", none, ⟨0, 0, 0, 0⟩, "", ""⟩),
         ("2", ⟨"2", "Agriculture", "s", "de", "p", none, ⟨0, 0, 0, 0⟩, "", ""⟩),
         ("3", ⟨"3", "Énergie", "s", "de", "p", none, ⟨0, 0, 0, 0⟩, "", ""⟩)]).datasets.map
        DatasetSummary.title)
      = ["Agriculture", "Élection", "Énergie"]
    ∧ (["Zèbre", "Élection"].insertionSort
        (fun a b => lexLt (frKey b) (frKey a) = false) = ["Élection", "Zèbre"]
      ∧ ["Zèbre", "Élection"].insertionSort
        (fun a b => strLe a b = true) = ["Zèbre", "Élection"]) := by
  refine ⟨?_, ?_, by decide, by decide, by decide⟩
  · have hperm : List.Perm
        (((metadataMap.map (fun q => summaryOf q.1 q.2)).insertionSort summaryLe).map
          DatasetSummary.id)
        ((metadataMap.map (fun q => summaryOf q.1 q.2)).map DatasetSummary.id) :=
      (List.perm_insertionSort summaryLe _).map DatasetSummary.id
    have hid : (metadataMap.map (fun q => summaryOf q.1 q.2)).map DatasetSummary.id
        = metadataMap.map Prod.fst := by
      rw [List.map_map]
      rfl
    rw [hid] at hperm
    exact hperm.nodup_iff.mpr hnd
  · exact sorted_insertionSort_of summaryLe summaryLe_total summaryLe_trans _

theorem c8_witness :
    ((([("1", ⟨"1", "Élection", "s", "de", "p", none, ⟨0, 0, 0, 0⟩, "", ""⟩),
        ("2", ⟨"2", "Agriculture", "s", "de", "p", none, ⟨0, 0, 0, 0⟩, "", ""⟩),
        ("3", ⟨"3", "Énergie", "s", "de", "p", none, ⟨0, 0, 0, 0⟩, "", ""⟩)] :
        List (String × DatagouvDataset)).map Prod.fst).Nodup)
    ∧ ((createDatasetsIndex
        [("1", ⟨"1", "Élection", "s", "de", "p", none, ⟨0, 0, 0, 0⟩, "", ""⟩),
         ("2", ⟨"2", "Agriculture", "s", "de", "p", none, ⟨0, 0, 0, 0⟩, "", ""⟩),
         ("3", ⟨"3", "Énergie", "s", "de", "p", none, ⟨0, 0, 0, 0⟩, "", ""⟩)]).datasets.map
        DatasetSummary.id).Nodup :=
  ⟨by decide,
    (c8_directory_dedup_sorted_locale
      [("1", ⟨"1", "Élection", "s", "de", "p", none, ⟨0, 0, 0, 0⟩, "", ""⟩),
       ("2", ⟨"2", "Agriculture", "s", "de", "p", none, ⟨0, 0, 0, 0⟩, "", ""⟩),
       ("3", ⟨"3", "Énergie", "s", "de", "p", none, ⟨0, 0, 0, 0⟩, "", ""⟩)]
      (by decide)).1⟩

/-! ### Claim C1 -/

theorem jget_loadMonthly_aux :
    ∀ (existing : List MonthlyStats) (m₀ : List (String × VD)) (mo : String),
    (existing.map MonthlyStats.month).Nodup →
    jget (existing.foldl (fun m stat => jset m stat.month ⟨stat.visits, stat.downloads⟩) m₀)
        mo =
      match existing.find? (fun s => s.month = mo) with
      | some s => some ⟨s.visits, s.downloads⟩
      | none => jget m₀ mo := by
  intro existing
  induction existing with
  | nil => intro m₀ mo _; rfl
  | cons s rest ih =>
    intro m₀ mo hnd
    simp only [List.map_cons, List.nodup_cons] at hnd
    rw [List.foldl_cons]
    by_cases h : s.month = mo
    · rw [ih _ mo hnd.2]
      have hfr : rest.find? (fun x => x.month = mo) = none :=
        List.find?_eq_none.mpr (fun x hx hpx => hnd.1 (by
          rw [show s.month = x.month from h.trans (of_decide_eq_true hpx).symm]
          exact List.mem_map.mpr ⟨x, hx, rfl⟩))
      rw [hfr, List.find?_cons_of_pos _ (by simpa using h), ← h, jget_jset_self]
    · rw [ih _ mo hnd.2, List.find?_cons_of_neg _ (by simpa using h)]
      cases rest.find? (fun x => x.month = mo) with
      | some s' => rfl
      | none => exact jget_jset_ne _ _ _ _ (fun hh => h hh.symm)

theorem valueAt_loadMonthly (existing : List MonthlyStats)
    (hnd : (existing.map MonthlyStats.month).Nodup) (mo : String) :
    valueAt (loadMonthly existing) mo = seriesAt existing mo := by
  rw [valueAt, loadMonthly, jget_loadMonthly_aux existing [] mo hnd, seriesAt]
  cases existing.find? (fun s => s.month = mo) with
  | some s => rfl
  | none => rfl

theorem nodup_keys_loadMonthly (existing : List MonthlyStats) :
    ((loadMonthly existing).map Prod.fst).Nodup := by
  suffices h : ∀ m₀ : List (String × VD), (m₀.map Prod.fst).Nodup →
      ((existing.foldl (fun m stat => jset m stat.month ⟨stat.visits, stat.downloads⟩)
        m₀).map Prod.fst).Nodup by
    exact h [] (by simp)
  induction existing with
  | nil => exact fun m₀ hm => hm
  | cons s rest ih => exact fun m₀ hm => ih _ (nodup_keys_jset hm)

theorem nodup_keys_updateMonthlyMap (datasetId : String) (existing : Option DatasetStats)
    (newData : List DatasetMonthlyUpdate) :
    ((updateMonthlyMap datasetId existing newData).map Prod.fst).Nodup := by
  apply nodup_keys_mergeRecords
  cases existing with
  | some ex => exact nodup_keys_loadMonthly ex.monthlyStats
  | none => simp

theorem monthlyStats_updateDatasetStats (datasetId : String) (existing : Option DatasetStats)
    (newData : List DatasetMonthlyUpdate) (metadata : DatagouvDataset) :
    (updateDatasetStats datasetId existing newData metadata).monthlyStats =
      ((updateMonthlyMap datasetId existing newData).insertionSort monthPairLe).map
        (fun p => MonthlyStats.mk p.1 p.2.visits p.2.downloads) := rfl

theorem months_nodup_updateDatasetStats (datasetId : String) (existing : Option DatasetStats)
    (newData : List DatasetMonthlyUpdate) (metadata : DatagouvDataset) :
    ((updateDatasetStats datasetId existing newData metadata).monthlyStats.map
      MonthlyStats.month).Nodup := by
  rw [monthlyStats_updateDatasetStats, List.map_map]
  rw [show (MonthlyStats.month ∘ fun p : String × VD =>
    MonthlyStats.mk p.1 p.2.visits p.2.downloads) = Prod.fst from rfl]
  exact (((List.perm_insertionSort monthPairLe _).map Prod.fst).nodup_iff).mpr
    (nodup_keys_updateMonthlyMap datasetId existing newData)

theorem seriesAt_updateDatasetStats (datasetId : String) (ex : DatasetStats)
    (hnd : (ex.monthlyStats.map MonthlyStats.month).Nodup)
    (newData : List DatasetMonthlyUpdate) (metadata : DatagouvDataset) (mo : String) :
    seriesAt (updateDatasetStats datasetId (some ex) newData metadata).monthlyStats mo =
      seriesAt ex.monthlyStats mo +
        (((newData.filter (fun u => u.datasetId = datasetId)).filter
          (fun u => u.month = mo)).map updateVD).sum := by
  rw [monthlyStats_updateDatasetStats,
    seriesAt_sortedMap _ (nodup_keys_updateMonthlyMap datasetId (some ex) newData),
    updateMonthlyMap]
  show valueAt (mergeRecords (loadMonthly ex.monthlyStats) _) mo = _
  rw [valueAt_mergeRecords, valueAt_loadMonthly ex.monthlyStats hnd, List.filter_map,
    List.map_map]
  rw [show ((fun p : String × VD => decide (p.1 = mo)) ∘ fun u : DatasetMonthlyUpdate =>
      (u.month, updateVD u)) = (fun u => decide (u.month = mo)) from rfl,
    show (Prod.snd ∘ fun u : DatasetMonthlyUpdate => (u.month, updateVD u)) = updateVD
      from rfl]

/-- C1: merging a batch of newly observed monthly records into an existing
entity series is additive — for every month the stored value equals the
pre-existing value plus the sum of all newly observed values for that
(dataset, month) across the whole batch (the concatenation of all source
pages) — and therefore merging the same batch a second time adds the batch
sum once more: where the pre-existing value was zero, the affected value
exactly doubles. -/
theorem c1_merge_additive_remerge_doubles (id : String) (ex : DatasetStats)
    (hnd : (ex.monthlyStats.map MonthlyStats.month).Nodup)
    (batch : List DatasetMonthlyUpdate) (md md' : DatagouvDataset) (mo : String) :
    (seriesAt (updateDatasetStats id (some ex) batch md).monthlyStats mo
      = seriesAt ex.monthlyStats mo
        + (((batch.filter (fun u => u.datasetId = id)).filter
            (fun u => u.month = mo)).map updateVD).sum)
    ∧ (seriesAt (updateDatasetStats id
          (some (updateDatasetStats id (some ex) batch md)) batch md').monthlyStats mo
      = seriesAt ex.monthlyStats mo
        + ((((batch.filter (fun u => u.datasetId = id)).filter
            (fun u => u.month = mo)).map updateVD).sum
          + (((batch.filter (fun u => u.datasetId = id)).filter
            (fun u => u.month = mo)).map updateVD).sum))
    ∧ (seriesAt ex.monthlyStats mo = 0 →
        seriesAt (updateDatasetStats id
            (some (updateDatasetStats id (some ex) batch md)) batch md').monthlyStats mo
          = seriesAt (updateDatasetStats id (some ex) batch md).monthlyStats mo
            + seriesAt (updateDatasetStats id (some ex) batch md).monthlyStats mo) := by
  have h1 := seriesAt_updateDatasetStats id ex hnd batch md mo
  have h2 := seriesAt_updateDatasetStats id (updateDatasetStats id (some ex) batch md)
    (months_nodup_updateDatasetStats id (some ex) batch md) batch md' mo
  refine ⟨h1, ?_, ?_⟩
  · rw [h2, h1, add_assoc]
  · intro h0
    rw [h2, h1, h0, zero_add]

theorem c1_witness :
    ((([⟨"2024-01", 5, 5⟩] : List MonthlyStats).map MonthlyStats.month).Nodup)
    ∧ seriesAt (updateDatasetStats "d"
        (some ⟨"d", "T", "s", "O", "oid", "u", 5, 5, [⟨"2024-01", 5, 5⟩], "2024-01",
          "2024-01"⟩)
        [⟨"d", "2024-02", 10, 3⟩, ⟨"d", "2024-02", 7, 1⟩, ⟨"other", "2024-02", 100, 100⟩]
        ⟨"d", "T", "s", "de", "p", none, ⟨0, 0, 0, 0⟩, "", ""⟩).monthlyStats "2024-02"
      = ⟨17, 4⟩
    ∧ (seriesAt ([⟨"2024-01", 5, 5⟩] : List MonthlyStats) "2024-02" = 0)
    ∧ seriesAt (updateDatasetStats "d"
        (some (updateDatasetStats "d"
          (some ⟨"d", "T", "s", "O", "oid", "u", 5, 5, [⟨"2024-01", 5, 5⟩], "2024-01",
            "2024-01"⟩)
          [⟨"d", "2024-02", 10, 3⟩, ⟨"d", "2024-02", 7, 1⟩, ⟨"other", "2024-02", 100, 100⟩]
          ⟨"d", "T", "s", "de", "p", none, ⟨0, 0, 0, 0⟩, "", ""⟩))
        [⟨"d", "2024-02", 10, 3⟩, ⟨"d", "2024-02", 7, 1⟩, ⟨"other", "2024-02", 100, 100⟩]
        ⟨"d", "T", "s", "de", "p", none, ⟨0, 0, 0, 0⟩, "", ""⟩).monthlyStats "2024-02"
      = seriesAt (updateDatasetStats "d"
          (some ⟨"d", "T", "s", "O", "oid", "u", 5, 5, [⟨"2024-01", 5, 5⟩], "2024-01",
            "2024-01"⟩)
          [⟨"d", "2024-02", 10, 3⟩, ⟨"d", "2024-02", 7, 1⟩, ⟨"other", "2024-02", 100, 100⟩]
          ⟨"d", "T", "s", "de", "p", none, ⟨0, 0, 0, 0⟩, "", ""⟩).monthlyStats "2024-02"
        + seriesAt (updateDatasetStats "d"
            (some ⟨"d", "T", "s", "O", "oid", "u", 5, 5, [⟨"2024-01", 5, 5⟩], "2024-01",
              "2024-01"⟩)
            [⟨"d", "2024-02", 10, 3⟩, ⟨"d", "2024-02", 7, 1⟩, ⟨"other", "2024-02", 100, 100⟩]
            ⟨"d", "T", "s", "de", "p", none, ⟨0, 0, 0, 0⟩, "", ""⟩).monthlyStats "2024-02" :=
  ⟨by decide, by decide, by decide,
    (c1_merge_additive_remerge_doubles "d"
      ⟨"d", "T", "s", "O", "oid", "u", 5, 5, [⟨"2024-01", 5, 5⟩], "2024-01", "2024-01"⟩
      (by decide)
      [⟨"d", "2024-02", 10, 3⟩, ⟨"d", "2024-02", 7, 1⟩, ⟨"other", "2024-02", 100, 100⟩]
      ⟨"d", "T", "s", "de", "p", none, ⟨0, 0, 0, 0⟩, "", ""⟩
      ⟨"d", "T", "s", "de", "p", none, ⟨0, 0, 0, 0⟩, "", ""⟩ "2024-02").2.2 (by decide)⟩

/-! ### Claim C6 -/

theorem toDigitsNat_fmt4 {y : Nat} (hy : y < 10000) : toDigitsNat (fmt4 y) = y := by
  simp only [toDigitsNat, fmt4, List.foldl_cons, List.foldl_nil]
  rw [digitChar_toNat (show y / 1000 < 10 by omega),
    digitChar_toNat (show y / 100 % 10 < 10 by omega),
    digitChar_toNat (show y / 10 % 10 < 10 by omega),
    digitChar_toNat (show y % 10 < 10 by omega)]
  omega

theorem toDigitsNat_fmt2 {m : Nat} (hm : m < 100) : toDigitsNat (fmt2 m) = m := by
  simp only [toDigitsNat, fmt2, List.foldl_cons, List.foldl_nil]
  rw [digitChar_toNat (show m / 10 < 10 by omega),
    digitChar_toNat (show m % 10 < 10 by omega)]
  omega

/-- `getNextMonth` is the successor on canonical month strings, December
rolling over to the next January. -/
theorem getNextMonth_fmtMonth {i : Nat} (hi : i < 120000) :
    getNextMonth (fmtMonth i) = fmtMonth (i + 1) := by
  show fmtMonth (toDigitsNat (fmt4 (i / 12)) * 12 + toDigitsNat (fmt2 (i % 12 + 1)))
      = fmtMonth (i + 1)
  rw [toDigitsNat_fmt4 (by omega), toDigitsNat_fmt2 (by omega)]
  congr 1
  omega

theorem monthIdx_fmtMonth {i : Nat} (hi : i < 120000) : monthIdx (fmtMonth i) = i := by
  show toDigitsNat (fmt4 (i / 12)) * 12 + toDigitsNat (fmt2 (i % 12 + 1)) - 1 = i
  rw [toDigitsNat_fmt4 (by omega), toDigitsNat_fmt2 (by omega)]
  omega

theorem monthsLoop_spec (n : Nat) (hn : n < 119999) :
    ∀ (fuel c : Nat), n + 1 - c ≤ fuel → c ≤ 119999 →
      monthsLoop fuel (fmtMonth c) (fmtMonth n) = (List.range' c (n + 1 - c)).map fmtMonth := by
  intro fuel
  induction fuel with
  | zero =>
    intro c hf _
    rw [show n + 1 - c = 0 by omega]
    rfl
  | succ fuel ih =>
    intro c hf hc
    show (if strLe (fmtMonth c) (fmtMonth n) then
        fmtMonth c :: monthsLoop fuel (getNextMonth (fmtMonth c)) (fmtMonth n) else []) = _
    rw [strLe_fmtMonth_decide (by omega) (by omega)]
    by_cases hcn : c ≤ n
    · rw [if_pos (by simp [hcn]), getNextMonth_fmtMonth (by omega),
        ih (c + 1) (by omega) (by omega), show n + 1 - c = (n - c) + 1 by omega,
        List.range'_succ]
      simp [show n + 1 - (c + 1) = n - c by omega]
    · rw [if_neg (by simp [hcn]), show n + 1 - c = 0 by omega]
      rfl

/-- `getMonthsToFetch` on canonical months: exactly the months strictly
after `lastMonth` through `now`, in chronological order. -/
theorem getMonthsToFetch_eq {l n : Nat} (hl : l < 119999) (hn : n < 119999) :
    getMonthsToFetch (fmtMonth l) (fmtMonth n) =
      (List.range' (l + 1) (n - l)).map fmtMonth := by
  rw [getMonthsToFetch, monthIdx_fmtMonth (by omega), getNextMonth_fmtMonth (by omega)]
  rw [monthsLoop_spec n hn (n + 1) (l + 1) (by omega) (by omega),
    show n + 1 - (l + 1) = n - l by omega]

/-- C6: the incremental merge determines the months to process as exactly
the set of months strictly after the latest stored month, through the
current calendar month inclusive, by successor arithmetic on "YYYY-MM"
driven by the lexicographic `<=` comparison; when this set is empty (the
anchor month equal to — or before — the last stored month) the run fetches
nothing and returns the stored state unchanged, reported as a no-op, not an
error. -/
theorem c6_months_strictly_after_and_noop (existing : GlobalStats)
    (fetch : String → List DatasetMonthlyUpdate) (anchor : Nat) (totalD : Int)
    (l : Nat) (hl : l < 119999) (hanchor : anchor < 119999)
    (hlast : existing.monthlyStats.getLast?.map MonthlyStats.month = some (fmtMonth l)) :
    (getMonthsToFetch (fmtMonth l) (getCurrentMonth anchor)
      = (List.range' (l + 1) (anchor - l)).map fmtMonth)
    ∧ (∀ mo, mo ∈ getMonthsToFetch (fmtMonth l) (getCurrentMonth anchor) ↔
        ∃ k, l < k ∧ k ≤ anchor ∧ mo = fmtMonth k)
    ∧ (getMonthsToFetch (fmtMonth l) (getCurrentMonth anchor) = [] ↔ anchor ≤ l)
    ∧ (anchor ≤ l →
        syncIncrementalGlobal existing fetch anchor totalD = (existing, true)) := by
  have heq : getMonthsToFetch (fmtMonth l) (getCurrentMonth anchor)
      = (List.range' (l + 1) (anchor - l)).map fmtMonth :=
    getMonthsToFetch_eq hl hanchor
  have hmem : ∀ mo, mo ∈ getMonthsToFetch (fmtMonth l) (getCurrentMonth anchor) ↔
      ∃ k, l < k ∧ k ≤ anchor ∧ mo = fmtMonth k := by
    intro mo
    rw [heq]
    constructor
    · intro hmo
      rcases List.mem_map.mp hmo with ⟨k, hk, rfl⟩
      have := List.mem_range'_1.mp hk
      exact ⟨k, by omega, by omega, rfl⟩
    · rintro ⟨k, hk1, hk2, rfl⟩
      exact List.mem_map.mpr ⟨k, List.mem_range'_1.mpr ⟨by omega, by omega⟩, rfl⟩
  have hnil : getMonthsToFetch (fmtMonth l) (getCurrentMonth anchor) = [] ↔ anchor ≤ l := by
    rw [heq]
    constructor
    · intro h
      by_contra hgt
      have : (List.range' (l + 1) (anchor - l)).map fmtMonth ≠ [] := by
        have : fmtMonth (l + 1) ∈ (List.range' (l + 1) (anchor - l)).map fmtMonth :=
          List.mem_map.mpr ⟨l + 1, List.mem_range'_1.mpr ⟨by omega, by omega⟩, rfl⟩
        intro hc
        rw [hc] at this
        simp at this
      exact this h
    · intro h
      rw [show anchor - l = 0 by omega]
      rfl
  refine ⟨heq, hmem, hnil, ?_⟩
  intro hle
  show syncIncrementalGlobal existing fetch anchor totalD = (existing, true)
  simp only [syncIncrementalGlobal, hlast, Option.getD_some, getCurrentMonth]
  rw [show getMonthsToFetch (fmtMonth l) (fmtMonth anchor) = [] from hnil.mpr hle]
  rfl

theorem c6_witness :
    ((24306 : Nat) < 119999 ∧ (24306 : Nat) < 119999)
    ∧ (([⟨"2025-07", 1, 2⟩] : List MonthlyStats).getLast?.map MonthlyStats.month
      = some (fmtMonth 24306))
    ∧ getMonthsToFetch (fmtMonth 24306) (getCurrentMonth 24309)
      = (List.range' (24306 + 1) (24309 - 24306)).map fmtMonth
    ∧ syncIncrementalGlobal ⟨1, 2, 1, "2025-07", [⟨"2025-07", 1, 2⟩]⟩
        (fun _ => []) 24306 1 = (⟨1, 2, 1, "2025-07", [⟨"2025-07", 1, 2⟩]⟩, true) :=
  ⟨⟨by norm_num, by norm_num⟩, by decide,
    (c6_months_strictly_after_and_noop ⟨1, 2, 1, "2025-07", [⟨"2025-07", 1, 2⟩]⟩
      (fun _ => []) 24309 1 24306 (by norm_num) (by norm_num) (by decide)).1,
    (c6_months_strictly_after_and_noop ⟨1, 2, 1, "2025-07", [⟨"2025-07", 1, 2⟩]⟩
      (fun _ => []) 24306 1 24306 (by norm_num) (by norm_num) (by decide)).2.2.2
      (le_refl _)⟩

end StatsExplorer
